import Mathlib

/-!
Verification of the Exams-Viewer-Legacy synchronization scripts
(`scripts/scraper.py`, `scripts/create_chunks.py`, `scripts/update_manifest.py`).

The Python sources are shallowly embedded below: every function that the
claims mention is translated into an executable Lean definition, with the
remote HTTP world modelled as an explicit oracle argument (a function from
URL to page data, and from page index to listing content).  File system
state is passed explicitly (the loaded JSON object in, the object handed to
`save_json` out).
-/

/-- One discussion comment as extracted by `scrape_page`
(`scraper.py` lines 269-307): content text, the commenter's selected
answer, and one level of reply texts. -/
structure Comment where
  content : String
  selected_answer : String
  replies : List String
deriving DecidableEq

/-- One entry of the vote-tally JSON embedded in a question page
(`scraper.py` lines 224-243).  The Python code reads the keys with
`item.get(...)`: `is_most_voted` is tested for truthiness,
`vote_count` defaults to 0, `voted_answers` defaults to `None`. -/
structure VoteEntry where
  is_most_voted : Bool
  vote_count : Nat
  voted_answers : Option String
deriving DecidableEq

/-- A question record as built by `scrape_page` (`scraper.py` lines
309-317): the dict with keys question, answers, comments,
question_number, link, most_voted, images, error.  `images` maps the
generated image id to its processed payload; the payload bytes are opaque
to every claim, so they are embedded as strings. -/
structure Question where
  question : String
  answers : List String
  comments : List Comment
  question_number : String
  link : String
  most_voted : Option String
  images : List (String × String)
  error : Option String
deriving DecidableEq

/-- The character list of the regex literal "question-" used by
`re.search(r"question-(\d+)", link)` in `scraper.py` (lines 204, 386). -/
def qpat : List Char := ['q', 'u', 'e', 's', 't', 'i', 'o', 'n', '-']

/-- Maximal leading run of decimal digits: the `(\d+)` capture group. -/
def takeDigits : List Char → List Char
  | [] => []
  | c :: cs => if c.isDigit then c :: takeDigits cs else []

/-- Left-to-right scan for the first occurrence of `question-` followed by
at least one digit, returning the captured digit run: the semantics of
`re.search(r"question-(\d+)", link)`. -/
def findQNumAux : List Char → Option (List Char)
  | [] => none
  | c :: cs =>
    if qpat.isPrefixOf (c :: cs) then
      let ds := takeDigits ((c :: cs).drop 9)
      if ds = [] then findQNumAux cs else some ds
    else findQNumAux cs

/-- `question_number` extraction from a link (`scraper.py` lines 204-205
and 386-387): the first `question-(\d+)` match, else "unknown". -/
def extractQuestionNumber (link : String) : String :=
  match findQNumAux link.data with
  | some ds => String.mk ds
  | none => "unknown"

theorem extractQuestionNumber_sample :
    extractQuestionNumber "/discussions/x/view/12-exam-y-question-57-discussion/" = "57" := by
  decide

theorem extractQuestionNumber_sample_unknown :
    extractQuestionNumber "/discussions/x/no-number/" = "unknown" := by decide

/-- The URL prefix prepended to every discussion link before fetching
(`scraper.py` line 377: `prefix = "https://www.examtopics.com"`). -/
def PREFIX : String := "https://www.examtopics.com"

/-- Scanning for `question-(\d+)` skips any leading characters that are
not `q`; prepending such characters never changes the match. -/
theorem findQNumAux_append_of_no_q (p l : List Char) (hp : ∀ c ∈ p, c ≠ 'q') :
    findQNumAux (p ++ l) = findQNumAux l := by
  induction p with
  | nil => rfl
  | cons c cs ih =>
    have hc : ('q' == c) = false := by
      rw [beq_eq_false_iff_ne]
      exact fun h => hp c (by simp) h.symm
    have hpre : qpat.isPrefixOf (c :: (cs ++ l)) = false := by
      simp [qpat, List.isPrefixOf, hc]
    show findQNumAux (c :: (cs ++ l)) = findQNumAux l
    rw [findQNumAux, hpre]
    simp only [Bool.false_eq_true, if_false]
    exact ih fun d hd => hp d (by simp [hd])

/-- The fetch prefix contains no `q`, so the question number extracted
from the full URL equals the one extracted from the bare link. -/
theorem extractQuestionNumber_PREFIX (l : String) :
    extractQuestionNumber (PREFIX ++ l) = extractQuestionNumber l := by
  unfold extractQuestionNumber
  rw [String.data_append, findQNumAux_append_of_no_q _ _ (by decide)]

/-- Stable insertion for the descending sort
`sorted(voted_json, key=lambda x: x.get('vote_count', 0), reverse=True)`
(`scraper.py` line 238).  Python's sort is stable and `reverse=True`
keeps equal-key elements in their original order, which is exactly the
behaviour of inserting with a non-strict comparison from the right. -/
def insDesc (e : VoteEntry) : List VoteEntry → List VoteEntry
  | [] => [e]
  | x :: xs => if x.vote_count ≤ e.vote_count then e :: x :: xs else x :: insDesc e xs

/-- The stable descending sort by `vote_count` of `scraper.py` line 238. -/
def sortVotesDesc (l : List VoteEntry) : List VoteEntry := l.foldr insDesc []

/-- The three-tier `most_voted` resolution of `scrape_page`
(`scraper.py` lines 221-254): first the entry flagged `is_most_voted`,
else the top vote-count entry when its count is positive, else the
`correct-answer` (suggested answer) span.  `voted_json` is the parsed
vote tally (empty when the tally block or its script is absent) and
`suggested` the text of the suggested-answer span when present. -/
def resolveMostVoted (voted_json : List VoteEntry) (suggested : Option String) : Option String :=
  let fromVotes :=
    match voted_json.find? (·.is_most_voted) with
    | some most_voted_object => most_voted_object.voted_answers
    | none =>
      match sortVotesDesc voted_json with
      | [] => none
      | top_answer :: _ =>
        if 0 < top_answer.vote_count then top_answer.voted_answers else none
  match fromVotes with
  | some a => some a
  | none => suggested

theorem mem_insDesc {a e : VoteEntry} {l : List VoteEntry} :
    a ∈ insDesc e l ↔ a = e ∨ a ∈ l := by
  induction l with
  | nil => simp [insDesc]
  | cons x xs ih =>
    by_cases h : x.vote_count ≤ e.vote_count
    · simp [insDesc, h]
    · simp [insDesc, h, ih]
      tauto

theorem mem_sortVotesDesc {a : VoteEntry} {l : List VoteEntry} :
    a ∈ sortVotesDesc l ↔ a ∈ l := by
  induction l with
  | nil => simp [sortVotesDesc]
  | cons x xs ih =>
    show a ∈ insDesc x (sortVotesDesc xs) ↔ _
    rw [mem_insDesc]
    simp [ih]

theorem pairwise_insDesc {e : VoteEntry} {l : List VoteEntry}
    (h : l.Pairwise (fun a b => b.vote_count ≤ a.vote_count)) :
    (insDesc e l).Pairwise (fun a b => b.vote_count ≤ a.vote_count) := by
  induction l with
  | nil => simp [insDesc]
  | cons x xs ih =>
    rw [List.pairwise_cons] at h
    by_cases hx : x.vote_count ≤ e.vote_count
    · rw [insDesc, if_pos hx]
      rw [List.pairwise_cons]
      refine ⟨?_, List.pairwise_cons.mpr h⟩
      intro b hb
      rcases List.mem_cons.mp hb with hb | hb
      · exact hb ▸ hx
      · exact le_trans (h.1 b hb) hx
    · rw [insDesc, if_neg hx]
      rw [List.pairwise_cons]
      refine ⟨?_, ih h.2⟩
      intro b hb
      rcases mem_insDesc.mp hb with hb | hb
      · exact hb ▸ le_of_not_le hx
      · exact h.1 b hb

theorem pairwise_sortVotesDesc (l : List VoteEntry) :
    (sortVotesDesc l).Pairwise (fun a b => b.vote_count ≤ a.vote_count) := by
  induction l with
  | nil => simp [sortVotesDesc]
  | cons x xs ih => exact pairwise_insDesc ih

/-- The head of the descending sort attains the maximal vote count. -/
theorem sortVotesDesc_head_max {l : List VoteEntry} {top : VoteEntry} {rest : List VoteEntry}
    (h : sortVotesDesc l = top :: rest) :
    top ∈ l ∧ ∀ e ∈ l, e.vote_count ≤ top.vote_count := by
  have hmem : top ∈ l := mem_sortVotesDesc.mp (h ▸ List.mem_cons_self top rest)
  refine ⟨hmem, fun e he => ?_⟩
  have he' : e ∈ sortVotesDesc l := mem_sortVotesDesc.mpr he
  rw [h] at he'
  rcases List.mem_cons.mp he' with rfl | he'
  · exact le_refl _
  · have := pairwise_sortVotesDesc l
    rw [h, List.pairwise_cons] at this
    exact this.1 e he'

/-- Claim C4: the answer-resolution policy of `scrape_page`.  Assuming
every vote entry carries a `voted_answers` value (the shape the source
page supplies), the computed `most_voted` is, in strict priority order:
the `voted_answers` of the first entry flagged `is_most_voted`; else the
`voted_answers` of a maximal-vote-count entry provided that count is
positive; else the suggested answer (which is `none` when absent, and
that is not an error). -/
theorem c4_answer_resolution_policy (voted_json : List VoteEntry) (suggested : Option String)
    (hp : ∀ e ∈ voted_json, e.voted_answers.isSome) :
    (∀ mv, voted_json.find? (·.is_most_voted) = some mv →
        resolveMostVoted voted_json suggested = mv.voted_answers)
    ∧ (voted_json.find? (·.is_most_voted) = none →
        (∀ top rest, sortVotesDesc voted_json = top :: rest → 0 < top.vote_count →
            resolveMostVoted voted_json suggested = top.voted_answers
            ∧ top ∈ voted_json
            ∧ ∀ e ∈ voted_json, e.vote_count ≤ top.vote_count)
        ∧ ((∀ e ∈ voted_json, e.vote_count = 0) →
            resolveMostVoted voted_json suggested = suggested)) := by
  refine ⟨?_, fun hnone => ⟨?_, ?_⟩⟩
  · intro mv hfind
    obtain ⟨a, ha⟩ := Option.isSome_iff_exists.mp
      (hp mv (List.mem_of_find?_eq_some hfind))
    simp [resolveMostVoted, hfind, ha]
  · intro top rest hsort hpos
    obtain ⟨hmem, hmax⟩ := sortVotesDesc_head_max hsort
    obtain ⟨a, ha⟩ := Option.isSome_iff_exists.mp (hp top hmem)
    refine ⟨?_, hmem, hmax⟩
    simp [resolveMostVoted, hnone, hsort, hpos, ha]
  · intro hzero
    match hsort : sortVotesDesc voted_json with
    | [] => simp [resolveMostVoted, hnone, hsort]
    | top :: rest =>
      have hmem := (sortVotesDesc_head_max hsort).1
      have : top.vote_count = 0 := hzero top hmem
      simp [resolveMostVoted, hnone, hsort, this]

/-- Concrete input for claim C4: a flagged entry is preferred even over a
higher vote count. -/
def w4votes : List VoteEntry := [⟨false, 3, some "A"⟩, ⟨true, 1, some "B"⟩]

/-- Claim C4, witness: on `w4votes` the flagged entry wins over the
3-vote entry and over the suggested answer. -/
theorem c4_answer_resolution_policy_witness :
    (∀ e ∈ w4votes, e.voted_answers.isSome)
    ∧ resolveMostVoted w4votes (some "S") = some "B" := by
  refine ⟨by decide, ?_⟩
  exact (c4_answer_resolution_policy w4votes (some "S") (by decide)).1
    ⟨true, 1, some "B"⟩ (by decide)

/-- `calculate_question_hash` (`scraper.py` lines 321-335).  The source
serializes `{'question', 'answers', 'most_voted'}` as a `sort_keys` JSON
string and returns its MD5 hex digest.  Serializer and digest are both
functions of this triple, so the digest is determined by the triple; the
embedding represents the digest by the triple itself.  `needs_update` is
the digest's only consumer and compares digests for equality only after
having compared each of the three fields directly, so at that point the
triples - hence also the real digests - are equal: representing the
digest by the triple changes no reachable comparison outcome. -/
def calculate_question_hash (question_data : Question) :
    String × List String × Option String :=
  (question_data.question, question_data.answers, question_data.most_voted)

/-- `needs_update` (`scraper.py` lines 338-364): the layered change
detector, first true case wins, returning the decision and its reason. -/
def needs_update (existing_question new_question : Question) : Bool × String :=
  if existing_question.most_voted = none ∧ new_question.most_voted ≠ none then
    (true, "most_voted was null, now has value")
  else if existing_question.most_voted ≠ new_question.most_voted then
    (true, "most_voted changed")
  else if existing_question.question ≠ new_question.question then
    (true, "question content changed")
  else if existing_question.answers ≠ new_question.answers then
    (true, "answers changed")
  else if calculate_question_hash existing_question ≠ calculate_question_hash new_question then
    (true, "content hash changed")
  else (false, "no changes detected")

theorem needs_update_refl (q : Question) :
    needs_update q q = (false, "no changes detected") := by
  simp [needs_update]

/-- Claim C5: records that agree on question, answers and most_voted -
however much their comments, links or error fields differ - have equal
fingerprints, and `needs_update` classifies the pair as unchanged. -/
theorem c5_comment_churn_invariance (e n : Question)
    (hq : e.question = n.question) (ha : e.answers = n.answers)
    (hm : e.most_voted = n.most_voted) :
    calculate_question_hash e = calculate_question_hash n
    ∧ needs_update e n = (false, "no changes detected") := by
  constructor
  · simp [calculate_question_hash, hq, ha, hm]
  · simp [needs_update, calculate_question_hash, hq, ha, hm]

/-- Concrete record for claim C5. -/
def w5existing : Question :=
  ⟨"Q body", ["A. x", "B. y"], [⟨"old comment", "A", []⟩], "7", "/old-link", some "A", [], none⟩

/-- Concrete record for claim C5: same question, answers and most_voted
as `w5existing`, different comments and link. -/
def w5fresh : Question :=
  ⟨"Q body", ["A. x", "B. y"], [⟨"new comment", "B", ["a reply"]⟩, ⟨"more", "", []⟩],
    "7", "/new-link", some "A", [], none⟩

/-- Claim C5, witness: comment churn alone leaves the fingerprint equal
and the classification unchanged. -/
theorem c5_comment_churn_invariance_witness :
    w5existing.question = w5fresh.question
    ∧ w5existing.answers = w5fresh.answers
    ∧ w5existing.most_voted = w5fresh.most_voted
    ∧ w5existing.comments ≠ w5fresh.comments
    ∧ calculate_question_hash w5existing = calculate_question_hash w5fresh
    ∧ needs_update w5existing w5fresh = (false, "no changes detected") := by
  refine ⟨rfl, rfl, rfl, by decide, ?_, ?_⟩
  · exact (c5_comment_churn_invariance w5existing w5fresh rfl rfl rfl).1
  · exact (c5_comment_churn_invariance w5existing w5fresh rfl rfl rfl).2


/-- One chunk file `chunks/chunk_<n>.json` as written by
`create_chunks_for_exam_data` (`scraper.py` lines 758-764) and by the
identical loop of `create_chunks.py` (lines 94-100). -/
structure ChunkData (α : Type) where
  chunk_id : Nat
  start_question : Nat
  end_question : Nat
  questions_count : Nat
  questions : List α
deriving DecidableEq

/-- The `metadata.json` payload written after chunking (`scraper.py`
lines 776-785; `create_chunks.py` lines 110-119).  String-only fields
(exam code/name, creation date) are claim-irrelevant and omitted. -/
structure ChunkMetadata where
  chunk_size : Nat
  total_chunks : Nat
  total_questions : Nat
  created_chunks : List Nat
deriving DecidableEq

/-- The body of the chunk-creation loop (`scraper.py` lines 752-764):
`start_idx = chunk_id*chunk_size`, `end_idx = min(start_idx+chunk_size,
total_questions)`, `chunk_questions = questions[start_idx:end_idx]`. -/
def mkChunk {α : Type} (questions : List α) (chunk_size chunk_id : Nat) : ChunkData α :=
  let start_idx := chunk_id * chunk_size
  let end_idx := min (start_idx + chunk_size) questions.length
  let chunk_questions := (questions.drop start_idx).take (end_idx - start_idx)
  { chunk_id := chunk_id
    start_question := start_idx + 1
    end_question := end_idx
    questions_count := chunk_questions.length
    questions := chunk_questions }

/-- `create_chunks_for_exam_data` (`scraper.py` lines 727-793; the chunk
construction is line-for-line the same as `create_chunks_for_exam` in
`create_chunks.py` lines 86-119).  `none` models the `return False`
"not enough questions to chunk" path.  Disk writes are modelled as
succeeding, so `created_chunks` collects every chunk index, exactly as
the source appends each successfully saved id.  A non-positive
`chunk_size` with a non-empty list makes the source raise
`ZeroDivisionError`; the claims quantify over positive chunk sizes. -/
def create_chunks_for_exam_data {α : Type} (questions : List α) (chunk_size : Nat) :
    Option (List (ChunkData α) × ChunkMetadata) :=
  if questions.length ≤ chunk_size then none
  else
    let total_chunks := (questions.length + chunk_size - 1) / chunk_size
    some ((List.range total_chunks).map (mkChunk questions chunk_size),
      { chunk_size := chunk_size
        total_chunks := total_chunks
        total_questions := questions.length
        created_chunks := List.range total_chunks })

/-- The Python slice `questions[start:min(start+S, N)]` equals
`take S (drop start questions)`. -/
theorem slice_eq_take {α : Type} (qs : List α) (a S : Nat) :
    (qs.drop a).take (min (a + S) qs.length - a) = (qs.drop a).take S := by
  rcases le_or_lt (a + S) qs.length with h | h
  · rw [min_eq_left h, Nat.add_sub_cancel_left]
  · rw [min_eq_right (le_of_lt h)]
    have hlen : (qs.drop a).length = qs.length - a := List.length_drop a qs
    rw [List.take_of_length_le (by omega), List.take_of_length_le (by omega)]

theorem mkChunk_chunk_id {α : Type} (qs : List α) (S i : Nat) :
    (mkChunk qs S i).chunk_id = i := rfl

theorem mkChunk_start {α : Type} (qs : List α) (S i : Nat) :
    (mkChunk qs S i).start_question = i * S + 1 := rfl

theorem mkChunk_end {α : Type} (qs : List α) (S i : Nat) :
    (mkChunk qs S i).end_question = min (i * S + S) qs.length := rfl

theorem mkChunk_questions {α : Type} (qs : List α) (S i : Nat) :
    (mkChunk qs S i).questions = (qs.drop (i * S)).take S := by
  show (qs.drop (i * S)).take (min (i * S + S) qs.length - i * S) = _
  exact slice_eq_take qs (i * S) S

theorem mkChunk_count {α : Type} (qs : List α) (S i : Nat) :
    (mkChunk qs S i).questions_count = ((qs.drop (i * S)).take S).length := by
  show ((qs.drop (i * S)).take (min (i * S + S) qs.length - i * S)).length = _
  rw [slice_eq_take qs (i * S) S]

/-- Concatenating the `take S`-slices at offsets `0, S, 2S, ...` covering
the whole list reproduces the list. -/
theorem join_take_slices {α : Type} (S : Nat) :
    ∀ (tc : Nat) (qs : List α), qs.length ≤ tc * S →
      ((List.range tc).map (fun i => (qs.drop (i * S)).take S)).flatten = qs := by
  intro tc
  induction tc with
  | zero =>
    intro qs h
    have : qs = [] := List.length_eq_zero.mp (by omega)
    simp [this]
  | succ tc ih =>
    intro qs h
    rw [List.range_succ_eq_map, List.map_cons, List.map_map, List.flatten_cons]
    have hmap : List.map ((fun i => (qs.drop (i * S)).take S) ∘ Nat.succ) (List.range tc)
        = List.map (fun i => ((qs.drop S).drop (i * S)).take S) (List.range tc) := by
      refine List.map_congr_left fun i _ => ?_
      have hsucc : Nat.succ i * S = S + i * S := by rw [Nat.succ_mul]; omega
      rw [Function.comp_apply, hsucc, ← List.drop_drop]
    rw [hmap, ih (qs.drop S) (by rw [List.length_drop]; rw [Nat.succ_mul] at h; omega)]
    simp [List.take_append_drop]

/-- Claim C6: chunk partitioning round-trips.  For a record list of
length N and positive chunk size S with S < N the partitioner yields
`ceil(N/S)` chunks whose `questions`, concatenated in chunk-id order,
reproduce the input; every chunk except the last holds exactly S records
and the last holds `N - S*(totalChunks-1)`; chunk i spans
`start_question = i*S + 1` and `end_question = min((i+1)*S, N)`;
`created_chunks` lists every chunk index. -/
theorem c6_chunk_round_trip {α : Type} (qs : List α) (S : Nat)
    (hS : 0 < S) (hlt : S < qs.length) :
    ∃ chunks md, create_chunks_for_exam_data qs S = some (chunks, md)
      ∧ md.total_chunks = (qs.length + S - 1) / S
      ∧ S * (md.total_chunks - 1) < qs.length
      ∧ qs.length ≤ S * md.total_chunks
      ∧ md.chunk_size = S
      ∧ md.total_questions = qs.length
      ∧ md.created_chunks = List.range md.total_chunks
      ∧ chunks.map (fun c => c.chunk_id) = List.range md.total_chunks
      ∧ (chunks.map (fun c => c.questions)).flatten = qs
      ∧ (∀ c ∈ chunks, c.start_question = c.chunk_id * S + 1
          ∧ c.end_question = min ((c.chunk_id + 1) * S) qs.length)
      ∧ (∀ c ∈ chunks, c.chunk_id + 1 < md.total_chunks → c.questions_count = S)
      ∧ (∀ c ∈ chunks, c.chunk_id + 1 = md.total_chunks →
          c.questions_count = qs.length - S * (md.total_chunks - 1)) := by
  have hnle : ¬ qs.length ≤ S := not_le.mpr hlt
  have hdm : S * ((qs.length + S - 1) / S) + (qs.length + S - 1) % S
      = qs.length + S - 1 := Nat.div_add_mod _ _
  have hmod : (qs.length + S - 1) % S < S := Nat.mod_lt _ hS
  have hub : qs.length ≤ S * ((qs.length + S - 1) / S) := by omega
  have htc1 : 1 ≤ (qs.length + S - 1) / S := by
    rcases Nat.eq_zero_or_pos ((qs.length + S - 1) / S) with h0 | h1
    · rw [h0] at hub; omega
    · exact h1
  have hmul1 : S * ((qs.length + S - 1) / S)
      = S * ((qs.length + S - 1) / S - 1) + S := by
    have hp : (qs.length + S - 1) / S - 1 + 1 = (qs.length + S - 1) / S :=
      Nat.succ_pred_eq_of_pos htc1
    calc S * ((qs.length + S - 1) / S)
        = S * ((qs.length + S - 1) / S - 1 + 1) := by rw [hp]
    _ = S * ((qs.length + S - 1) / S - 1) + S := by rw [Nat.mul_succ]
  have hlb : S * ((qs.length + S - 1) / S - 1) < qs.length := by omega
  refine ⟨(List.range ((qs.length + S - 1) / S)).map (mkChunk qs S),
    ⟨S, (qs.length + S - 1) / S, qs.length, List.range ((qs.length + S - 1) / S)⟩,
    ?_, rfl, hlb, hub, rfl, rfl, rfl, ?_, ?_, ?_, ?_, ?_⟩
  · simp [create_chunks_for_exam_data, hnle]
  · rw [List.map_map]
    have : ((fun c : ChunkData α => c.chunk_id) ∘ mkChunk qs S)
        = fun i => i := funext fun i => mkChunk_chunk_id qs S i
    rw [this]
    exact List.map_id' _
  · rw [List.map_map]
    have hmap : List.map ((fun c : ChunkData α => c.questions) ∘ mkChunk qs S)
        (List.range ((qs.length + S - 1) / S))
        = List.map (fun i => (qs.drop (i * S)).take S)
            (List.range ((qs.length + S - 1) / S)) :=
      List.map_congr_left fun i _ => mkChunk_questions qs S i
    rw [hmap]
    exact join_take_slices S _ qs (by rw [Nat.mul_comm] at hub; exact hub)
  · intro c hc
    obtain ⟨i, _, rfl⟩ := List.mem_map.mp hc
    refine ⟨mkChunk_start qs S i, ?_⟩
    rw [mkChunk_end, mkChunk_chunk_id]
    congr 1
    rw [Nat.add_mul, Nat.one_mul]
  · intro c hc hi
    obtain ⟨i, hir, rfl⟩ := List.mem_map.mp hc
    rw [mkChunk_chunk_id] at hi
    have hi' : i + 1 < (qs.length + S - 1) / S := hi
    rw [mkChunk_count, List.length_take, List.length_drop]
    have hiS : i * S + S ≤ S * ((qs.length + S - 1) / S - 1) := by
      have hile : i + 1 ≤ (qs.length + S - 1) / S - 1 := by
        simp only [List.mem_range] at hir
        omega
      calc i * S + S = (i + 1) * S := by rw [Nat.add_mul, Nat.one_mul]
      _ ≤ ((qs.length + S - 1) / S - 1) * S := Nat.mul_le_mul_right S hile
      _ = S * ((qs.length + S - 1) / S - 1) := Nat.mul_comm _ _
    omega
  · intro c hc hi
    obtain ⟨i, hir, rfl⟩ := List.mem_map.mp hc
    rw [mkChunk_chunk_id] at hi
    have hi' : i + 1 = (qs.length + S - 1) / S := hi
    rw [mkChunk_count]
    show ((qs.drop (i * S)).take S).length
        = qs.length - S * ((qs.length + S - 1) / S - 1)
    rw [List.length_take, List.length_drop]
    have hieq : i = (qs.length + S - 1) / S - 1 := by omega
    have hmc : i * S = S * ((qs.length + S - 1) / S - 1) := by
      rw [hieq, Nat.mul_comm]
    omega

/-- Claim C6, witness: 7 records, chunk size 3 yields chunks of sizes
3, 3, 1 whose concatenation reproduces the list. -/
theorem c6_chunk_round_trip_witness :
    0 < 3 ∧ 3 < (List.range 7).length
    ∧ ∃ chunks md, create_chunks_for_exam_data (List.range 7) 3 = some (chunks, md)
      ∧ md.total_chunks = ((List.range 7).length + 3 - 1) / 3
      ∧ 3 * (md.total_chunks - 1) < (List.range 7).length
      ∧ (List.range 7).length ≤ 3 * md.total_chunks
      ∧ md.chunk_size = 3
      ∧ md.total_questions = (List.range 7).length
      ∧ md.created_chunks = List.range md.total_chunks
      ∧ chunks.map (fun c => c.chunk_id) = List.range md.total_chunks
      ∧ (chunks.map (fun c => c.questions)).flatten = List.range 7
      ∧ (∀ c ∈ chunks, c.start_question = c.chunk_id * 3 + 1
          ∧ c.end_question = min ((c.chunk_id + 1) * 3) (List.range 7).length)
      ∧ (∀ c ∈ chunks, c.chunk_id + 1 < md.total_chunks → c.questions_count = 3)
      ∧ (∀ c ∈ chunks, c.chunk_id + 1 = md.total_chunks →
          c.questions_count = (List.range 7).length - 3 * (md.total_chunks - 1)) :=
  ⟨by decide, by decide, c6_chunk_round_trip (List.range 7) 3 (by decide) (by decide)⟩

/-- The `exam.json` payload as written by `scrape_questions`
(`scraper.py` line 443): `{"status": ..., "error": ..., "questions": ...}`. -/
structure QuestionsObj where
  status : String
  error : String
  questions : List Question
deriving DecidableEq

/-- The observable states of a JSON file on disk for `load_json`
(`scraper.py` lines 74-81): absent, present but undecodable, or a stored
object.  (`stored` covers every file the scripts themselves write.) -/
inductive ExamFile
  | missing
  | corrupt
  | stored (obj : QuestionsObj)
deriving DecidableEq

/-- `load_json` (`scraper.py` lines 74-81) applied to `exam.json`:
a missing file or a `json.JSONDecodeError` both yield the empty dict
`{}`, which is falsy; `none` models that falsy result. -/
def load_exam_file : ExamFile → Option QuestionsObj
  | .missing => none
  | .corrupt => none
  | .stored obj => some obj

/-- The record list `scrape_questions` starts from (`scraper.py` lines
368-372): the stored object's `questions` when the loaded dict is
truthy, else the empty list. -/
def initialQuestions (file : ExamFile) : List Question :=
  match load_exam_file file with
  | some obj => obj.questions
  | none => []

/-- One directory under `data/` as seen by `scan_exam_directory`
(`update_manifest.py` lines 37-115): its name, its `exam.json` state,
and its modification timestamp (`st_mtime` rendered to ISO). -/
structure ExamDir where
  name : String
  examFile : ExamFile
  mtime : String
deriving DecidableEq

/-- One manifest entry (`update_manifest.py` lines 99-105).  The
`exam_name` fallback chain always lands on the exam code because the
`exam.json` files written by `scrape_questions` carry no `exam_name`
key; the optional `source` block from `links.json` only adds diagnostic
fields and is omitted. -/
structure ManifestEntry where
  code : String
  name : String
  description : String
  questionCount : Nat
  lastUpdated : String
deriving DecidableEq

/-- `scan_exam_directory` (`update_manifest.py` lines 37-115): `none`
when `exam.json` is absent, when loading it raises (corrupt JSON), or
when it holds zero questions; otherwise the manifest entry. -/
def scan_exam_directory (d : ExamDir) : Option ManifestEntry :=
  match d.examFile with
  | .missing => none
  | .corrupt => none
  | .stored obj =>
    if obj.questions.length = 0 then none
    else some
      { code := d.name
        name := d.name
        description := d.name ++ " certification exam questions"
        questionCount := obj.questions.length
        lastUpdated := d.mtime }

/-- Stable insertion for `manifest_entries.sort(key=lambda x: x['code'])`
(`update_manifest.py` line 148). -/
def insertEntry (e : ManifestEntry) : List ManifestEntry → List ManifestEntry
  | [] => [e]
  | x :: xs => if e.code ≤ x.code then e :: x :: xs else x :: insertEntry e xs

/-- The stable ascending sort by entry code of `update_manifest.py` line 148. -/
def sortEntries (l : List ManifestEntry) : List ManifestEntry := l.foldr insertEntry []

/-- The `manifest.json` payload (`update_manifest.py` lines 151-157);
the `generated` wall-clock timestamp is ambient and omitted. -/
structure Manifest where
  version : String
  totalExams : Nat
  totalQuestions : Nat
  exams : List ManifestEntry
deriving DecidableEq

/-- `generate_manifest` (`update_manifest.py` lines 118-166): scan every
non-hidden directory, keep the entries, sort them by code, and recompute
both totals from the entry list. -/
def generate_manifest (dirs : List ExamDir) : Manifest :=
  let manifest_entries :=
    (dirs.filter (fun d => !(d.name.startsWith "."))).filterMap scan_exam_directory
  let sorted := sortEntries manifest_entries
  { version := "3.0"
    totalExams := sorted.length
    totalQuestions := (sorted.map (fun e => e.questionCount)).sum
    exams := sorted }

theorem mem_insertEntry {a e : ManifestEntry} {l : List ManifestEntry} :
    a ∈ insertEntry e l ↔ a = e ∨ a ∈ l := by
  induction l with
  | nil => simp [insertEntry]
  | cons x xs ih =>
    by_cases h : e.code ≤ x.code
    · simp [insertEntry, h]
    · simp [insertEntry, h, ih]
      tauto

theorem pairwise_insertEntry {e : ManifestEntry} {l : List ManifestEntry}
    (h : l.Pairwise (fun a b => a.code ≤ b.code)) :
    (insertEntry e l).Pairwise (fun a b => a.code ≤ b.code) := by
  induction l with
  | nil => simp [insertEntry]
  | cons x xs ih =>
    rw [List.pairwise_cons] at h
    by_cases hx : e.code ≤ x.code
    · rw [insertEntry, if_pos hx, List.pairwise_cons]
      refine ⟨?_, List.pairwise_cons.mpr h⟩
      intro b hb
      rcases List.mem_cons.mp hb with rfl | hb
      · exact hx
      · exact le_trans hx (h.1 b hb)
    · rw [insertEntry, if_neg hx, List.pairwise_cons]
      refine ⟨?_, ih h.2⟩
      intro b hb
      rcases mem_insertEntry.mp hb with rfl | hb
      · exact le_of_not_le hx
      · exact h.1 b hb

theorem pairwise_sortEntries (l : List ManifestEntry) :
    (sortEntries l).Pairwise (fun a b => a.code ≤ b.code) := by
  induction l with
  | nil => simp [sortEntries]
  | cons x xs ih => exact pairwise_insertEntry ih

/-- Claim C8: manifest consistency.  For every directory set the
generated manifest's `totalQuestions` is the sum of its entries'
question counts, `totalExams` is the number of entries, the entries are
sorted in ascending code order, and a directory with a missing or
corrupt `exam.json`, or one holding zero questions, yields no entry. -/
theorem c8_manifest_consistency :
    (∀ dirs, (generate_manifest dirs).totalQuestions
        = ((generate_manifest dirs).exams.map (fun e => e.questionCount)).sum)
    ∧ (∀ dirs, (generate_manifest dirs).totalExams
        = (generate_manifest dirs).exams.length)
    ∧ (∀ dirs, (generate_manifest dirs).exams.Pairwise (fun a b => a.code ≤ b.code))
    ∧ (∀ n m, scan_exam_directory ⟨n, .missing, m⟩ = none)
    ∧ (∀ n m, scan_exam_directory ⟨n, .corrupt, m⟩ = none)
    ∧ (∀ n m s e, scan_exam_directory ⟨n, .stored ⟨s, e, []⟩, m⟩ = none) := by
  refine ⟨fun dirs => rfl, fun dirs => rfl, fun dirs => pairwise_sortEntries _,
    fun n m => rfl, fun n m => rfl, fun n m s e => rfl⟩

/-- What the remote site serves for one question URL, as decomposed by
the parsing steps of `scrape_page` (`scraper.py` lines 184-318):
`fetchFail` models `respectful_request` returning `None` or the parse
raising (the whole-page failure of lines 187-202); the remaining fields
are the per-section extraction results, each already defaulted to
empty/none by the source's per-section exception handlers. -/
structure PageData where
  question : String
  answers : List String
  voteData : List VoteEntry
  suggested : Option String
  comments : List Comment
  images : List (String × String)
  fetchFail : Option String
deriving DecidableEq

/-- `scrape_page` (`scraper.py` lines 184-318) applied to the page the
remote serves at `url`.  On whole-page failure it returns the error
placeholder of lines 192-202 (empty fields, `question_number`
"unknown", `error` set); otherwise it assembles the record, extracting
`question_number` from the URL and `most_voted` through the three-tier
resolution. -/
def scrape_page (page : PageData) (url : String) : Question :=
  match page.fetchFail with
  | some e =>
    { question := ""
      answers := []
      comments := []
      question_number := "unknown"
      link := url
      most_voted := none
      images := []
      error := some ("Request or parsing failed: " ++ e) }
  | none =>
    { question := page.question
      answers := page.answers
      comments := page.comments
      question_number := extractQuestionNumber url
      link := url
      most_voted := resolveMostVoted page.voteData page.suggested
      images := page.images
      error := none }

/-- The mutable state of the `scrape_questions` loop (`scraper.py` lines
379-439): the evolving record list, the three counters, the error
string, plus the instrumentation field `fetched` recording every URL
passed to `scrape_page`, in order (used to state the fail-fast claim). -/
structure SyncState where
  questions : List Question
  updated_count : Nat
  new_count : Nat
  skipped_count : Nat
  error_string : String
  fetched : List String
deriving DecidableEq

/-- The in-place update loop of `scraper.py` lines 406-411 and 426-430:
replace the first record whose `question_number` matches, reporting
whether a replacement happened (the counter increment is guarded by it). -/
def replaceFirst (question_number : String) (nq : Question) :
    List Question → List Question × Bool
  | [] => ([], false)
  | q :: qs =>
    if q.question_number = question_number then (nq :: qs, true)
    else
      let r := replaceFirst question_number nq qs
      (q :: r.1, r.2)

/-- `existing_questions_dict.get(question_number)` where the dict is
built once, up front, by `{q["question_number"]: q for q in questions}`
(`scraper.py` line 375): a Python dict comprehension keeps the LAST
record for a duplicated key, i.e. the first match in the reversed list. -/
def existingDict (qs : List Question) (question_number : String) : Option Question :=
  qs.reverse.find? (fun q => q.question_number == question_number)

/-- First record with the given `question_number`, in list order. -/
def findByNum (qs : List Question) (question_number : String) : Option Question :=
  qs.find? (fun q => q.question_number == question_number)

/-- `scrape_page(prefix + link)` as invoked at `scraper.py` lines 395
and 418, against the remote oracle. -/
def fetchRecord (remote : String → PageData) (link : String) : Question :=
  scrape_page (remote (PREFIX ++ link)) (PREFIX ++ link)

/-- One iteration of the `scrape_questions` loop body (`scraper.py`
lines 385-434) on one link.  `.inl` is the `break` on a fetch error
(lines 397-399 and 420-422), `.inr` the continue path. -/
def stepResult (remote : String → PageData) (force_update : Bool)
    (qs0 : List Question) (st : SyncState) (link : String) : SyncState ⊕ SyncState :=
  let question_number := extractQuestionNumber link
  let existing := existingDict qs0 question_number
  match existing, force_update with
  | some existing_question, false =>
    let new_question := fetchRecord remote link
    let st1 := { st with fetched := st.fetched ++ [PREFIX ++ link] }
    match new_question.error with
    | some e => .inl { st1 with error_string := "Error: " ++ e }
    | none =>
      if (needs_update existing_question new_question).1 then
        let r := replaceFirst question_number new_question st1.questions
        .inr { st1 with
                questions := r.1
                updated_count := st1.updated_count + (if r.2 then 1 else 0) }
      else
        .inr { st1 with skipped_count := st1.skipped_count + 1 }
  | some _, true =>
    let question_object := fetchRecord remote link
    let st1 := { st with fetched := st.fetched ++ [PREFIX ++ link] }
    match question_object.error with
    | some e => .inl { st1 with error_string := "Error: " ++ e }
    | none =>
      let r := replaceFirst question_number question_object st1.questions
      .inr { st1 with
              questions := r.1
              updated_count := st1.updated_count + (if r.2 then 1 else 0) }
  | none, _ =>
    let question_object := fetchRecord remote link
    let st1 := { st with fetched := st.fetched ++ [PREFIX ++ link] }
    match question_object.error with
    | some e => .inl { st1 with error_string := "Error: " ++ e }
    | none =>
      .inr { st1 with
              questions := st1.questions ++ [question_object]
              new_count := st1.new_count + 1 }

/-- The full `for i, link in enumerate(question_links)` loop of
`scrape_questions` (`scraper.py` lines 385-439): `.inl` stops the
iteration (the `break`), `.inr` continues with the next link.  `qs0` is
the initial record list from which the lookup dict was built once. -/
def runLinks (remote : String → PageData) (force_update : Bool)
    (qs0 : List Question) : List String → SyncState → SyncState
  | [], st => st
  | link :: rest, st =>
    match stepResult remote force_update qs0 st link with
    | .inl stErr => stErr
    | .inr st' => runLinks remote force_update qs0 rest st'

/-- Decimal value of a digit string: Python's `int(...)` on the strings
`isdigit` accepts. -/
def digitsToNat : List Char → Nat → Nat
  | [], acc => acc
  | c :: cs, acc => digitsToNat cs (acc * 10 + (c.toNat - '0'.toNat))

/-- The sort key of `scraper.py` line 441:
`int(q["question_number"]) if q["question_number"].isdigit() else
float('inf')`.  `isdigit` accepts exactly the non-empty all-digit
strings; `none` stands for `float('inf')`. -/
def qKey (q : Question) : Option Nat :=
  if q.question_number.data ≠ [] ∧ q.question_number.data.all Char.isDigit
  then some (digitsToNat q.question_number.data 0) else none

/-- Comparison on sort keys with `none` playing `float('inf')`. -/
def keyLE : Option Nat → Option Nat → Bool
  | _, none => true
  | none, some _ => false
  | some a, some b => a ≤ b

/-- Stable insertion for `questions.sort(key=...)` (`scraper.py` line
441); Python's sort is stable and ascending. -/
def insertQ (q : Question) : List Question → List Question
  | [] => [q]
  | x :: xs => if keyLE (qKey q) (qKey x) then q :: x :: xs else x :: insertQ q xs

/-- The stable ascending sort of `scraper.py` line 441. -/
def sortQuestions (l : List Question) : List Question := l.foldr insertQ []

/-- `scrape_questions` (`scraper.py` lines 367-453): load the stored
collection, run the reconciliation loop over the discovered links, sort
the result by numeric id, set `status` to `complete` exactly when the
record count equals the link count, and persist
`{"status", "error", "questions"}`.  Returns the persisted object
together with the final loop state (the counters).  `rapid_scraping`
only controls the sleep between fetches and has no observable effect
here. -/
def scrape_questions (remote : String → PageData) (question_links : List String)
    (file : ExamFile) (force_update : Bool) : QuestionsObj × SyncState :=
  let questions := initialQuestions file
  let st := runLinks remote force_update questions question_links
    { questions := questions
      updated_count := 0
      new_count := 0
      skipped_count := 0
      error_string := ""
      fetched := [] }
  let sorted := sortQuestions st.questions
  let status := if sorted.length = question_links.length then "complete" else "in progress"
  ({ status := status, error := st.error_string, questions := sorted }, st)

/-- Claim C3, amended: after every run the persisted `status` is
`complete` exactly when the stored record count equals the discovered
link count - the error string plays no part in the decision
(`scraper.py` line 442). -/
theorem c3_completion_status (remote : String → PageData) (links : List String)
    (file : ExamFile) (force_update : Bool) :
    (scrape_questions remote links file force_update).1.status = "complete"
    ↔ (scrape_questions remote links file force_update).1.questions.length
        = links.length := by
  simp only [scrape_questions]
  split
  · next h => simp [h]
  · next h => simp [h]

/-- A record already stored for question 1, used by the claim C3
counterexample. -/
def c3q : Question := ⟨"B", ["A"], [], "1", "/old", some "A", [], none⟩

/-- A stored complete collection holding `c3q`. -/
def c3file : ExamFile := .stored ⟨"complete", "", [c3q]⟩

/-- A remote that fails every fetch. -/
def c3remote : String → PageData :=
  fun _ => ⟨"", [], [], none, [], [], some "connection reset"⟩

/-- The single discovered link for the claim C3 counterexample. -/
def c3links : List String := ["/x/question-1-y"]

/-- Claim C3, counterexample: a run that aborts on its very first fetch
error still persists `status = "complete"` (with a non-empty error
string), because the stored count already matches the link count - the
status test ignores the error. -/
theorem c3_completion_status_counterexample :
    (scrape_questions c3remote c3links c3file false).1.status = "complete"
    ∧ (scrape_questions c3remote c3links c3file false).1.error
        = "Error: Request or parsing failed: connection reset"
    ∧ (scrape_questions c3remote c3links c3file false).1.error ≠ "" := by
  refine ⟨by decide, by decide, by decide⟩

/-- The `links.json` payload as written by `get_question_links`
(`scraper.py` line 180): `{"page_num", "status", "links"}`. -/
structure LinksFileObj where
  page_num : Nat
  status : String
  links : List String
deriving DecidableEq

/-- The observable states of `links.json` for `load_json`. -/
inductive LinksFile
  | missing
  | corrupt
  | stored (obj : LinksFileObj)
deriving DecidableEq

/-- `load_json` (`scraper.py` lines 74-81) applied to `links.json`:
missing file and undecodable JSON both give the falsy `{}`. -/
def load_links_file : LinksFile → Option LinksFileObj
  | .missing => none
  | .corrupt => none
  | .stored obj => some obj

/-- The observable outcome of one `get_question_links` call: the
returned link list, the `links.json` state after the call (unchanged on
the early "complete" return, else the single `save_json` of line 181),
and the pages the sweep iterated (instrumentation for the resumability
claim). -/
structure CrawlResult where
  result : List String
  persisted : LinksFile
  scannedPages : List Nat
deriving DecidableEq

/-- Sort key of `scraper.py` line 179:
`int(re.search(r'question-(\d+)', link).group(1))`.  On a link without
the pattern the source raises `AttributeError` (`.group` on `None`);
such links never reach the sort because the claims' inputs carry the
pattern; the total model maps them to key 0. -/
def crawlKey (link : String) : Nat :=
  match findQNumAux link.data with
  | some ds => digitsToNat ds 0
  | none => 0

/-- Stable insertion for `sorted(question_links, key=...)`
(`scraper.py` line 179). -/
def insertLink (l : String) : List String → List String
  | [] => [l]
  | x :: xs => if crawlKey l ≤ crawlKey x then l :: x :: xs else x :: insertLink l xs

/-- The stable ascending sort by embedded question number of
`scraper.py` line 179. -/
def sortLinks (ls : List String) : List String := ls.foldr insertLink []

/-- The page sweep of `get_question_links` (`scraper.py` lines 158-182):
iterate pages `page_num .. num_pages`, skipping pages whose fetch fails
(`pageFetch` returns `none`), appending each fetched page's matching
links; then sort everything and persist
`{"page_num": num_pages, "status": "complete", "links": sorted}` - the
only `save_json` of the function, executed after the sweep completes.
(When `page_num > num_pages` the loop body never runs and the source
raises `NameError` on the unbound loop variable; the claims' inputs
start at page 1 with at least one page.) -/
def crawlPages (num_pages : Nat) (pageFetch : Nat → Option (List String))
    (init : List String) (page_num : Nat) : CrawlResult :=
  let pages := List.range' page_num (num_pages + 1 - page_num)
  let collected := pages.foldl
    (fun acc i =>
      match pageFetch i with
      | some ls => acc ++ ls
      | none => acc)
    init
  let sorted := sortLinks collected
  { result := sorted
    persisted := .stored { page_num := num_pages, status := "complete", links := sorted }
    scannedPages := pages }

/-- `get_question_links` (`scraper.py` lines 112-182) from the point
where the page count is known.  A truthy stored file without
`force_rescan` either returns its links immediately (status complete,
lines 142-144) or resumes the sweep at its recorded `page_num`; any
falsy file, or `force_rescan`, starts a fresh sweep at page 1 (lines
145-155). -/
def get_question_links (num_pages : Nat) (pageFetch : Nat → Option (List String))
    (file : LinksFile) (force_rescan : Bool) : CrawlResult :=
  match load_links_file file, force_rescan with
  | some obj, false =>
    if obj.status = "complete" then
      { result := obj.links, persisted := file, scannedPages := [] }
    else
      crawlPages num_pages pageFetch obj.links obj.page_num
  | _, _ => crawlPages num_pages pageFetch [] 1

/-- Claim C7, amended: `get_question_links` persists only after a
completed sweep, so the state an interruption leaves behind is the
pre-run state; re-invoking on that state restarts the sweep at page 1
(scanning `1 .. num_pages`), and a stored complete file is returned
as-is with no page scanned at all. -/
theorem c7_resumability (num_pages : Nat) (pageFetch : Nat → Option (List String)) :
    (∀ fr, (get_question_links num_pages pageFetch .missing fr).scannedPages
        = List.range' 1 num_pages)
    ∧ (∀ pn ls, get_question_links num_pages pageFetch
          (.stored ⟨pn, "complete", ls⟩) false
        = { result := ls
            persisted := .stored ⟨pn, "complete", ls⟩
            scannedPages := [] }) := by
  constructor
  · intro fr
    have : num_pages + 1 - 1 = num_pages := by omega
    cases fr <;> simp [get_question_links, load_links_file, crawlPages, this]
  · intro pn ls
    rfl

/-- The remote listing for the claim C7 counterexample: three pages,
each contributing one link. -/
def c7pages : Nat → Option (List String) :=
  fun i => some [(("/t/question-" ++ toString i) ++ "-x")]

/-- Claim C7, counterexample: a first `discover` interrupted after
scanning page 2 (of 3) has persisted nothing - the only `save_json` of
`get_question_links` runs after the sweep - so `links.json` still holds
its pre-run state (here: missing).  The re-invocation without
`forceRescan` therefore scans pages [1, 2, 3] from the start: it does
not resume at page k+1 = 3. -/
theorem c7_resumability_counterexample :
    (get_question_links 3 c7pages .missing false).scannedPages = [1, 2, 3]
    ∧ (get_question_links 3 c7pages .missing false).scannedPages ≠ [3]
    ∧ (get_question_links 3 c7pages .missing false).scannedPages.head? = some 1 := by
  refine ⟨by decide, by decide, by decide⟩

/-- Claim C10: `load_json` never raises - a missing file and
undecodable JSON both load as the falsy empty dict - so a corrupt
`exam.json` or `links.json` behaves exactly like an absent one: the
next `scrape_questions` run starts from an empty record list and the
next `get_question_links` sweep starts at page 1, and the sweep's final
save replaces the corrupt file with a fresh complete one. -/
theorem c10_corrupt_json_as_absent :
    load_exam_file .missing = none
    ∧ load_exam_file .corrupt = none
    ∧ load_links_file .missing = none
    ∧ load_links_file .corrupt = none
    ∧ initialQuestions .corrupt = []
    ∧ initialQuestions .missing = []
    ∧ (∀ remote links fu,
        scrape_questions remote links .corrupt fu
          = scrape_questions remote links .missing fu)
    ∧ (∀ np pf fr,
        get_question_links np pf .corrupt fr = get_question_links np pf .missing fr)
    ∧ (∀ np pf fr, (get_question_links np pf .corrupt fr).scannedPages
        = List.range' 1 np)
    ∧ (∀ np pf fr, ∃ o, (get_question_links np pf .corrupt fr).persisted = .stored o
        ∧ o.status = "complete") := by
  refine ⟨rfl, rfl, rfl, rfl, rfl, rfl, fun remote links fu => rfl,
    fun np pf fr => rfl, ?_, ?_⟩
  · intro np pf fr
    have : np + 1 - 1 = np := by omega
    cases fr <;> simp [get_question_links, load_links_file, crawlPages, this]
  · intro np pf fr
    exact ⟨_, rfl, rfl⟩

/-- The question numbers of a record list, in order. -/
def qNums (qs : List Question) : List String := qs.map (fun q => q.question_number)

theorem findByNum_eq_none {qs : List Question} {n : String} :
    findByNum qs n = none ↔ ∀ q ∈ qs, q.question_number ≠ n := by
  rw [findByNum, List.find?_eq_none]
  simp

theorem findByNum_some_mem {qs : List Question} {n : String} {q : Question}
    (h : findByNum qs n = some q) : q ∈ qs ∧ q.question_number = n := by
  refine ⟨List.mem_of_find?_eq_some h, ?_⟩
  have := List.find?_some h
  simpa using this

theorem findByNum_of_mem_nodup {qs : List Question} {n : String} {q : Question}
    (hnd : (qNums qs).Nodup) (hmem : q ∈ qs) (hn : q.question_number = n) :
    findByNum qs n = some q := by
  induction qs with
  | nil => cases hmem
  | cons x xs ih =>
    rw [qNums, List.map_cons, List.nodup_cons] at hnd
    by_cases hx : x.question_number = n
    · have hxq : x = q := by
        rcases List.mem_cons.mp hmem with rfl | hmem'
        · rfl
        · exfalso
          apply hnd.1
          rw [hx, ← hn]
          exact List.mem_map.mpr ⟨q, hmem', rfl⟩
      rw [findByNum, List.find?_cons_of_pos _ (by simp [hx]), hxq]
    · have hq : q ∈ xs := by
        rcases List.mem_cons.mp hmem with rfl | hmem'
        · exact absurd hn hx
        · exact hmem'
      rw [findByNum, List.find?_cons_of_neg _ (by simp [hx])]
      exact ih hnd.2 hq

theorem qNums_reverse (qs : List Question) : qNums qs.reverse = (qNums qs).reverse := by
  simp [qNums]

/-- With pairwise-distinct question numbers the last-wins dict lookup
agrees with the first-match list lookup. -/
theorem existingDict_eq_findByNum {qs : List Question} {n : String}
    (hnd : (qNums qs).Nodup) : existingDict qs n = findByNum qs n := by
  cases h : findByNum qs n with
  | none =>
    rw [findByNum_eq_none] at h
    show findByNum qs.reverse n = none
    rw [findByNum_eq_none]
    intro q hq
    exact h q (List.mem_reverse.mp hq)
  | some q =>
    obtain ⟨hmem, hn⟩ := findByNum_some_mem h
    show findByNum qs.reverse n = some q
    refine findByNum_of_mem_nodup ?_ (List.mem_reverse.mpr hmem) hn
    rw [qNums_reverse]
    exact List.nodup_reverse.mpr hnd

theorem replaceFirst_qNums {n : String} {nq : Question} (hq : nq.question_number = n) :
    ∀ qs : List Question, qNums (replaceFirst n nq qs).1 = qNums qs := by
  intro qs
  induction qs with
  | nil => rfl
  | cons x xs ih =>
    by_cases hx : x.question_number = n
    · simp [replaceFirst, hx, qNums, hq]
    · simp only [replaceFirst, hx, if_false, qNums, List.map_cons]
      exact congrArg (fun l => x.question_number :: l) ih

theorem replaceFirst_length (n : String) (nq : Question) (qs : List Question) :
    (replaceFirst n nq qs).1.length = qs.length := by
  induction qs with
  | nil => rfl
  | cons x xs ih =>
    by_cases hx : x.question_number = n
    · simp [replaceFirst, hx]
    · simp [replaceFirst, hx, ih]

theorem replaceFirst_findByNum_same {n : String} {nq : Question} {qs : List Question}
    {q : Question} (hfind : findByNum qs n = some q) (hq : nq.question_number = n) :
    findByNum (replaceFirst n nq qs).1 n = some nq := by
  induction qs with
  | nil => cases hfind
  | cons x xs ih =>
    by_cases hx : x.question_number = n
    · simp [replaceFirst, hx, findByNum, List.find?_cons_of_pos, hq]
    · rw [findByNum, List.find?_cons_of_neg _ (by simp [hx])] at hfind
      simp only [replaceFirst, hx, if_false]
      rw [findByNum, List.find?_cons_of_neg _ (by simp [hx])]
      exact ih hfind

theorem replaceFirst_findByNum_other {n m : String} {nq : Question} {qs : List Question}
    (hq : nq.question_number = n) (hnm : m ≠ n) :
    findByNum (replaceFirst n nq qs).1 m = findByNum qs m := by
  induction qs with
  | nil => rfl
  | cons x xs ih =>
    by_cases hx : x.question_number = n
    · have h1 : ¬ (nq.question_number == m) = true := by
        simp only [beq_iff_eq, hq]
        exact fun h => hnm h.symm
      have h2 : ¬ (x.question_number == m) = true := by
        simp only [beq_iff_eq, hx]
        exact fun h => hnm h.symm
      show findByNum
        (if x.question_number = n then (nq :: xs, true)
          else (x :: (replaceFirst n nq xs).1, (replaceFirst n nq xs).2)).1 m = _
      rw [if_pos hx]
      show List.find? (fun q => q.question_number == m) (nq :: xs) = _
      rw [@List.find?_cons_of_neg _ (fun q => q.question_number == m) nq xs h1]
      show _ = List.find? (fun q => q.question_number == m) (x :: xs)
      rw [@List.find?_cons_of_neg _ (fun q => q.question_number == m) x xs h2]
    · show findByNum
        (if x.question_number = n then (nq :: xs, true)
          else (x :: (replaceFirst n nq xs).1, (replaceFirst n nq xs).2)).1 m = _
      rw [if_neg hx]
      by_cases hxm : x.question_number = m
      · show List.find? (fun q => q.question_number == m) (x :: (replaceFirst n nq xs).1) = _
        rw [List.find?_cons_of_pos _ (by simp [hxm])]
        show _ = List.find? (fun q => q.question_number == m) (x :: xs)
        rw [List.find?_cons_of_pos _ (by simp [hxm])]
      · show List.find? (fun q => q.question_number == m) (x :: (replaceFirst n nq xs).1) = _
        rw [List.find?_cons_of_neg _ (by simp [hxm])]
        show _ = List.find? (fun q => q.question_number == m) (x :: xs)
        rw [List.find?_cons_of_neg _ (by simp [hxm])]
        exact ih

theorem mem_replaceFirst {n : String} {nq q : Question} {qs : List Question}
    (h : q ∈ (replaceFirst n nq qs).1) : q = nq ∨ q ∈ qs := by
  induction qs with
  | nil => cases h
  | cons x xs ih =>
    by_cases hx : x.question_number = n
    · simp only [replaceFirst, hx, if_true] at h
      rcases List.mem_cons.mp h with rfl | h
      · exact Or.inl rfl
      · exact Or.inr (List.mem_cons.mpr (Or.inr h))
    · simp only [replaceFirst, hx, if_false] at h
      rcases List.mem_cons.mp h with rfl | h
      · exact Or.inr (List.mem_cons.mpr (Or.inl rfl))
      · rcases ih h with h | h
        · exact Or.inl h
        · exact Or.inr (List.mem_cons.mpr (Or.inr h))

theorem mem_replaceFirst_of_ne {n : String} {nq q : Question} {qs : List Question}
    (hmem : q ∈ qs) (hne : q.question_number ≠ n) : q ∈ (replaceFirst n nq qs).1 := by
  induction qs with
  | nil => cases hmem
  | cons x xs ih =>
    by_cases hx : x.question_number = n
    · have hxq : q ≠ x := fun h => hne (h ▸ hx)
      have hq : q ∈ xs := by
        rcases List.mem_cons.mp hmem with rfl | h
        · exact absurd rfl hxq
        · exact h
      simp only [replaceFirst, hx, if_true]
      exact List.mem_cons.mpr (Or.inr hq)
    · simp only [replaceFirst, hx, if_false]
      rcases List.mem_cons.mp hmem with rfl | h
      · exact List.mem_cons.mpr (Or.inl rfl)
      · exact List.mem_cons.mpr (Or.inr (ih h))

theorem replaceFirst_found {n : String} {nq : Question} {qs : List Question}
    {q : Question} (hfind : findByNum qs n = some q) :
    (replaceFirst n nq qs).2 = true := by
  induction qs with
  | nil => cases hfind
  | cons x xs ih =>
    by_cases hx : x.question_number = n
    · simp [replaceFirst, hx]
    · rw [findByNum, List.find?_cons_of_neg _ (by simp [hx])] at hfind
      simp only [replaceFirst, hx, if_false]
      exact ih hfind

theorem findByNum_append_of_ne {qs : List Question} {nq : Question} {m : String}
    (h : nq.question_number ≠ m) :
    findByNum (qs ++ [nq]) m = findByNum qs m := by
  have hsingle : List.find? (fun q => q.question_number == m) [nq] = none := by
    rw [List.find?_eq_none]
    intro x hx
    simp only [List.mem_singleton] at hx
    simp [hx, h]
  show List.find? _ (qs ++ [nq]) = List.find? (fun q => q.question_number == m) qs
  rw [List.find?_append, hsingle]
  cases List.find? (fun q => q.question_number == m) qs <;> rfl

theorem findByNum_append_self {qs : List Question} {nq : Question} {m : String}
    (hnone : findByNum qs m = none) (h : nq.question_number = m) :
    findByNum (qs ++ [nq]) m = some nq := by
  show List.find? _ (qs ++ [nq]) = some nq
  rw [List.find?_append,
    show List.find? (fun q => q.question_number == m) qs = none from hnone,
    List.find?_cons_of_pos _ (by simp [h])]
  rfl

theorem findByNum_eq_none_iff_not_mem {qs : List Question} {n : String} :
    findByNum qs n = none ↔ n ∉ qNums qs := by
  rw [findByNum_eq_none]
  constructor
  · intro h hmem
    obtain ⟨q, hq, hqn⟩ := List.mem_map.mp hmem
    exact h q hq hqn
  · intro h q hq hqn
    exact h (List.mem_map.mpr ⟨q, hq, hqn⟩)

theorem keyLE_trans {a b c : Option Nat} (h1 : keyLE a b = true) (h2 : keyLE b c = true) :
    keyLE a c = true := by
  cases a <;> cases b <;> cases c <;>
    simp [keyLE, decide_eq_true_eq] at * <;> omega

theorem keyLE_of_not {a b : Option Nat} (h : ¬ keyLE a b = true) : keyLE b a = true := by
  cases a <;> cases b <;>
    simp [keyLE, decide_eq_true_eq] at * <;> omega

theorem insertQ_perm (q : Question) (l : List Question) : (insertQ q l).Perm (q :: l) := by
  induction l with
  | nil => exact List.Perm.refl _
  | cons x xs ih =>
    by_cases h : keyLE (qKey q) (qKey x) = true
    · rw [insertQ, if_pos h]
    · rw [insertQ, if_neg h]
      exact List.Perm.trans (List.Perm.cons x ih) (List.Perm.swap q x xs)

theorem sortQuestions_perm (l : List Question) : (sortQuestions l).Perm l := by
  induction l with
  | nil => exact List.Perm.refl _
  | cons x xs ih =>
    show (insertQ x (sortQuestions xs)).Perm _
    exact List.Perm.trans (insertQ_perm x (sortQuestions xs)) (List.Perm.cons x ih)

/-- The list is sorted for the Python key of `scraper.py` line 441. -/
def SortedQ (l : List Question) : Prop :=
  l.Pairwise (fun a b => keyLE (qKey a) (qKey b) = true)

theorem insertQ_pairwise {q : Question} {l : List Question} (h : SortedQ l) :
    SortedQ (insertQ q l) := by
  induction l with
  | nil => simp [insertQ, SortedQ]
  | cons x xs ih =>
    rw [SortedQ, List.pairwise_cons] at h
    by_cases hx : keyLE (qKey q) (qKey x) = true
    · rw [insertQ, if_pos hx, SortedQ, List.pairwise_cons]
      refine ⟨?_, List.pairwise_cons.mpr h⟩
      intro b hb
      rcases List.mem_cons.mp hb with rfl | hb
      · exact hx
      · exact keyLE_trans hx (h.1 b hb)
    · rw [insertQ, if_neg hx, SortedQ, List.pairwise_cons]
      refine ⟨?_, ih h.2⟩
      intro b hb
      rcases List.mem_cons.mp ((insertQ_perm q xs).mem_iff.mp hb) with rfl | hb
      · exact keyLE_of_not hx
      · exact h.1 b hb

theorem sortQuestions_pairwise (l : List Question) : SortedQ (sortQuestions l) := by
  induction l with
  | nil => simp [sortQuestions, SortedQ]
  | cons x xs ih => exact insertQ_pairwise ih

theorem sortQuestions_of_sorted {l : List Question} (h : SortedQ l) :
    sortQuestions l = l := by
  induction l with
  | nil => rfl
  | cons x xs ih =>
    rw [SortedQ, List.pairwise_cons] at h
    show insertQ x (sortQuestions xs) = x :: xs
    rw [ih h.2]
    cases xs with
    | nil => rfl
    | cons y ys =>
      rw [insertQ, if_pos (h.1 y (List.mem_cons_self y ys))]

theorem sortQuestions_idem (l : List Question) :
    sortQuestions (sortQuestions l) = sortQuestions l :=
  sortQuestions_of_sorted (sortQuestions_pairwise l)

theorem fetchRecord_ok {remote : String → PageData} {link : String}
    (hok : (remote (PREFIX ++ link)).fetchFail = none) :
    (fetchRecord remote link).error = none
    ∧ (fetchRecord remote link).question_number = extractQuestionNumber link := by
  rw [fetchRecord, scrape_page, hok]
  exact ⟨rfl, extractQuestionNumber_PREFIX link⟩

theorem fetchRecord_fail {remote : String → PageData} {link : String} {e : String}
    (hfail : (remote (PREFIX ++ link)).fetchFail = some e) :
    (fetchRecord remote link).error = some ("Request or parsing failed: " ++ e) := by
  rw [fetchRecord, scrape_page, hfail]

/-- On a failed fetch the loop body breaks: state unchanged except the
fetched log and the error string. -/
theorem stepResult_fail (remote : String → PageData) (fu : Bool) (qs0 : List Question)
    (st : SyncState) (link : String) {e : String}
    (hfail : (remote (PREFIX ++ link)).fetchFail = some e) :
    stepResult remote fu qs0 st link =
      .inl { st with
        fetched := st.fetched ++ [PREFIX ++ link]
        error_string := "Error: " ++ ("Request or parsing failed: " ++ e) } := by
  have herr := fetchRecord_fail hfail
  unfold stepResult
  cases hex : existingDict qs0 (extractQuestionNumber link) <;> cases fu <;>
    simp only [herr] <;> rw [hex]

/-- On a successful fetch the loop body continues; the resulting state by
branch of `scraper.py` lines 392-434. -/
theorem stepResult_ok (remote : String → PageData) (fu : Bool) (qs0 : List Question)
    (st : SyncState) (link : String)
    (hok : (remote (PREFIX ++ link)).fetchFail = none) :
    stepResult remote fu qs0 st link =
      match existingDict qs0 (extractQuestionNumber link), fu with
      | some existing_question, false =>
        if (needs_update existing_question (fetchRecord remote link)).1 then
          .inr { st with
            questions := (replaceFirst (extractQuestionNumber link)
              (fetchRecord remote link) st.questions).1
            updated_count := st.updated_count +
              (if (replaceFirst (extractQuestionNumber link)
                (fetchRecord remote link) st.questions).2 then 1 else 0)
            fetched := st.fetched ++ [PREFIX ++ link] }
        else
          .inr { st with
            skipped_count := st.skipped_count + 1
            fetched := st.fetched ++ [PREFIX ++ link] }
      | some _, true =>
        .inr { st with
          questions := (replaceFirst (extractQuestionNumber link)
            (fetchRecord remote link) st.questions).1
          updated_count := st.updated_count +
            (if (replaceFirst (extractQuestionNumber link)
              (fetchRecord remote link) st.questions).2 then 1 else 0)
          fetched := st.fetched ++ [PREFIX ++ link] }
      | none, _ =>
        .inr { st with
          questions := st.questions ++ [fetchRecord remote link]
          new_count := st.new_count + 1
          fetched := st.fetched ++ [PREFIX ++ link] } := by
  have herr := (fetchRecord_ok hok).1
  unfold stepResult
  cases hex : existingDict qs0 (extractQuestionNumber link) <;> cases fu <;>
    simp only [herr] <;> rw [hex]

theorem runLinks_nil (remote : String → PageData) (fu : Bool) (qs0 : List Question)
    (st : SyncState) : runLinks remote fu qs0 [] st = st := rfl

theorem runLinks_cons (remote : String → PageData) (fu : Bool) (qs0 : List Question)
    (st : SyncState) (link : String) (rest : List String) :
    runLinks remote fu qs0 (link :: rest) st =
      match stepResult remote fu qs0 st link with
      | .inl stErr => stErr
      | .inr st' => runLinks remote fu qs0 rest st' := rfl

/-- Branch (`scraper.py` lines 412-414): existing record, no
force_update, no change detected: skip. -/
theorem stepResult_skip {remote : String → PageData} {qs0 : List Question}
    {st : SyncState} {link : String} {ex : Question}
    (hok : (remote (PREFIX ++ link)).fetchFail = none)
    (hex : existingDict qs0 (extractQuestionNumber link) = some ex)
    (hnu : (needs_update ex (fetchRecord remote link)).1 = false) :
    stepResult remote false qs0 st link =
      .inr { st with
        skipped_count := st.skipped_count + 1
        fetched := st.fetched ++ [PREFIX ++ link] } := by
  rw [stepResult_ok remote false qs0 st link hok, hex]
  simp [hnu]

/-- Branch (`scraper.py` lines 404-411): existing record, no
force_update, change detected: replace in place. -/
theorem stepResult_update {remote : String → PageData} {qs0 : List Question}
    {st : SyncState} {link : String} {ex : Question}
    (hok : (remote (PREFIX ++ link)).fetchFail = none)
    (hex : existingDict qs0 (extractQuestionNumber link) = some ex)
    (hnu : (needs_update ex (fetchRecord remote link)).1 = true) :
    stepResult remote false qs0 st link =
      .inr { st with
        questions := (replaceFirst (extractQuestionNumber link)
          (fetchRecord remote link) st.questions).1
        updated_count := st.updated_count +
          (if (replaceFirst (extractQuestionNumber link)
            (fetchRecord remote link) st.questions).2 then 1 else 0)
        fetched := st.fetched ++ [PREFIX ++ link] } := by
  rw [stepResult_ok remote false qs0 st link hok, hex]
  simp [hnu]

/-- Branch (`scraper.py` lines 424-430): existing record with
force_update: replace unconditionally. -/
theorem stepResult_force {remote : String → PageData} {qs0 : List Question}
    {st : SyncState} {link : String} {ex : Question}
    (hok : (remote (PREFIX ++ link)).fetchFail = none)
    (hex : existingDict qs0 (extractQuestionNumber link) = some ex) :
    stepResult remote true qs0 st link =
      .inr { st with
        questions := (replaceFirst (extractQuestionNumber link)
          (fetchRecord remote link) st.questions).1
        updated_count := st.updated_count +
          (if (replaceFirst (extractQuestionNumber link)
            (fetchRecord remote link) st.questions).2 then 1 else 0)
        fetched := st.fetched ++ [PREFIX ++ link] } := by
  rw [stepResult_ok remote true qs0 st link hok, hex]

/-- Branch (`scraper.py` lines 431-434): no existing record: append. -/
theorem stepResult_new {remote : String → PageData} {fu : Bool} {qs0 : List Question}
    {st : SyncState} {link : String}
    (hok : (remote (PREFIX ++ link)).fetchFail = none)
    (hex : existingDict qs0 (extractQuestionNumber link) = none) :
    stepResult remote fu qs0 st link =
      .inr { st with
        questions := st.questions ++ [fetchRecord remote link]
        new_count := st.new_count + 1
        fetched := st.fetched ++ [PREFIX ++ link] } := by
  rw [stepResult_ok remote fu qs0 st link hok, hex]

theorem runLinks_cons_inr {remote : String → PageData} {fu : Bool} {qs0 : List Question}
    {st st' : SyncState} {link : String} (rest : List String)
    (h : stepResult remote fu qs0 st link = .inr st') :
    runLinks remote fu qs0 (link :: rest) st = runLinks remote fu qs0 rest st' := by
  rw [runLinks_cons, h]

theorem runLinks_cons_inl {remote : String → PageData} {fu : Bool} {qs0 : List Question}
    {st stErr : SyncState} {link : String} (rest : List String)
    (h : stepResult remote fu qs0 st link = .inl stErr) :
    runLinks remote fu qs0 (link :: rest) st = stErr := by
  rw [runLinks_cons, h]

/-- When every fetch succeeds the loop never breaks: the fetch log grows
by exactly the processed URLs in order and the error string is
untouched. -/
theorem runLinks_ok_log (remote : String → PageData) (fu : Bool) (qs0 : List Question) :
    ∀ (links : List String) (st : SyncState),
      (∀ l ∈ links, (remote (PREFIX ++ l)).fetchFail = none) →
      (runLinks remote fu qs0 links st).fetched
          = st.fetched ++ links.map (fun l => PREFIX ++ l)
        ∧ (runLinks remote fu qs0 links st).error_string = st.error_string := by
  intro links
  induction links with
  | nil =>
    intro st _
    simp [runLinks_nil]
  | cons link rest ih =>
    intro st h
    have hok := h link (List.mem_cons_self _ _)
    have hrest : ∀ l ∈ rest, (remote (PREFIX ++ l)).fetchFail = none :=
      fun l hl => h l (List.mem_cons_of_mem _ hl)
    cases hex : existingDict qs0 (extractQuestionNumber link) with
    | some ex =>
      cases fu with
      | false =>
        by_cases hnu : (needs_update ex (fetchRecord remote link)).1 = true
        · rw [runLinks_cons_inr rest (stepResult_update hok hex hnu)]
          obtain ⟨h1, h2⟩ := ih _ hrest
          rw [h1, h2]
          simp
        · rw [runLinks_cons_inr rest
            (stepResult_skip hok hex (Bool.not_eq_true _ ▸ hnu))]
          obtain ⟨h1, h2⟩ := ih _ hrest
          rw [h1, h2]
          simp
      | true =>
        rw [runLinks_cons_inr rest (stepResult_force hok hex)]
        obtain ⟨h1, h2⟩ := ih _ hrest
        rw [h1, h2]
        simp
    | none =>
      rw [runLinks_cons_inr rest (stepResult_new hok hex)]
      obtain ⟨h1, h2⟩ := ih _ hrest
      rw [h1, h2]
      simp

/-- On a successful fetch the loop body yields a continue-state whose
fetch log grew by this URL, whose error string is untouched, and whose
record list gained at most the fetched record while keeping every record
with a different question number. -/
theorem stepResult_ok_spec {remote : String → PageData} {fu : Bool}
    {qs0 : List Question} {st : SyncState} {link : String}
    (hok : (remote (PREFIX ++ link)).fetchFail = none) :
    ∃ st', stepResult remote fu qs0 st link = .inr st'
      ∧ st'.fetched = st.fetched ++ [PREFIX ++ link]
      ∧ st'.error_string = st.error_string
      ∧ (∀ q ∈ st'.questions, q = fetchRecord remote link ∨ q ∈ st.questions)
      ∧ (∀ q ∈ st.questions,
          q.question_number ≠ extractQuestionNumber link → q ∈ st'.questions) := by
  have hnum := (fetchRecord_ok hok).2
  cases hex : existingDict qs0 (extractQuestionNumber link) with
  | some ex =>
    cases fu with
    | false =>
      by_cases hnu : (needs_update ex (fetchRecord remote link)).1 = true
      · refine ⟨_, stepResult_update hok hex hnu, rfl, rfl, ?_, ?_⟩
        · intro q hq
          exact mem_replaceFirst hq
        · intro q hq hne
          exact mem_replaceFirst_of_ne hq hne
      · refine ⟨_, stepResult_skip hok hex (Bool.not_eq_true _ ▸ hnu), rfl, rfl, ?_, ?_⟩
        · intro q hq
          exact Or.inr hq
        · intro q hq _
          exact hq
    | true =>
      refine ⟨_, stepResult_force hok hex, rfl, rfl, ?_, ?_⟩
      · intro q hq
        exact mem_replaceFirst hq
      · intro q hq hne
        exact mem_replaceFirst_of_ne hq hne
  | none =>
    refine ⟨_, stepResult_new hok hex, rfl, rfl, ?_, ?_⟩
    · intro q hq
      rcases List.mem_append.mp hq with hq | hq
      · exact Or.inr hq
      · exact Or.inl (List.mem_singleton.mp hq)
    · intro q hq _
      exact List.mem_append_left _ hq

/-- A loop over `pre ++ rest` with every `pre` fetch succeeding is the
loop over `rest` started from the state the `pre` loop reaches. -/
theorem runLinks_append_ok (remote : String → PageData) (fu : Bool) (qs0 : List Question) :
    ∀ (pre rest : List String) (st : SyncState),
      (∀ l ∈ pre, (remote (PREFIX ++ l)).fetchFail = none) →
      runLinks remote fu qs0 (pre ++ rest) st
        = runLinks remote fu qs0 rest (runLinks remote fu qs0 pre st) := by
  intro pre
  induction pre with
  | nil =>
    intro rest st _
    rfl
  | cons link pre' ih =>
    intro rest st h
    obtain ⟨st', hstep, -⟩ := stepResult_ok_spec (h link (List.mem_cons_self _ _))
    rw [List.cons_append, runLinks_cons_inr _ hstep, runLinks_cons_inr _ hstep]
    exact ih rest st' (fun l hl => h l (List.mem_cons_of_mem _ hl))

/-- A loop whose fetches all succeed only ever inserts freshly fetched
records, so an all-clean record list stays all-clean. -/
theorem runLinks_error_free (remote : String → PageData) (fu : Bool) (qs0 : List Question) :
    ∀ (links : List String) (st : SyncState),
      (∀ l ∈ links, (remote (PREFIX ++ l)).fetchFail = none) →
      (∀ q ∈ st.questions, q.error = none) →
      ∀ q ∈ (runLinks remote fu qs0 links st).questions, q.error = none := by
  intro links
  induction links with
  | nil =>
    intro st _ hclean
    exact hclean
  | cons link rest ih =>
    intro st h hclean
    have hok := h link (List.mem_cons_self _ _)
    obtain ⟨st', hstep, -, -, hmem, -⟩ := stepResult_ok_spec hok
    rw [runLinks_cons_inr _ hstep]
    refine ih st' (fun l hl => h l (List.mem_cons_of_mem _ hl)) ?_
    intro q hq
    rcases hmem q hq with rfl | hq'
    · exact (fetchRecord_ok hok).1
    · exact hclean q hq'

/-- Records whose question number never appears among the processed
links survive the loop untouched. -/
theorem runLinks_untouched (remote : String → PageData) (fu : Bool) (qs0 : List Question) :
    ∀ (links : List String) (st : SyncState),
      (∀ l ∈ links, (remote (PREFIX ++ l)).fetchFail = none) →
      ∀ q ∈ st.questions,
        q.question_number ∉ links.map extractQuestionNumber →
        q ∈ (runLinks remote fu qs0 links st).questions := by
  intro links
  induction links with
  | nil =>
    intro st _ q hq _
    exact hq
  | cons link rest ih =>
    intro st h q hq hnot
    have hok := h link (List.mem_cons_self _ _)
    obtain ⟨st', hstep, -, -, -, hkeep⟩ := stepResult_ok_spec hok
    rw [runLinks_cons_inr _ hstep]
    rw [List.map_cons] at hnot
    refine ih st' (fun l hl => h l (List.mem_cons_of_mem _ hl)) q ?_ ?_
    · exact hkeep q hq (fun hh => hnot (hh ▸ List.mem_cons_self _ _))
    · exact fun hh => hnot (List.mem_cons_of_mem _ hh)

/-- Main loop invariant.  Starting from a record list with
pairwise-distinct question numbers that agrees with the start-of-run
lookup dict on every remaining link, and with pairwise-distinct link
numbers: the final list still has distinct numbers; numbers outside the
link list resolve unchanged; and if every fetch succeeds, every link's
number resolves to a record that a second identical fetch would classify
unchanged (when `force_update` is off), and the length grew by exactly
the number of links whose id was absent from the start-of-run dict. -/
theorem runLinks_main (remote : String → PageData) (fu : Bool) (qs0 : List Question) :
    ∀ (links : List String) (st : SyncState),
      (qNums st.questions).Nodup →
      (∀ l ∈ links, findByNum st.questions (extractQuestionNumber l)
          = existingDict qs0 (extractQuestionNumber l)) →
      (links.map extractQuestionNumber).Nodup →
      (qNums (runLinks remote fu qs0 links st).questions).Nodup
      ∧ (∀ n, n ∉ links.map extractQuestionNumber →
          findByNum (runLinks remote fu qs0 links st).questions n
            = findByNum st.questions n)
      ∧ ((∀ l ∈ links, (remote (PREFIX ++ l)).fetchFail = none) →
          (∀ l ∈ links, ∃ q,
            findByNum (runLinks remote fu qs0 links st).questions
              (extractQuestionNumber l) = some q
            ∧ (fu = false → (needs_update q (fetchRecord remote l)).1 = false))
          ∧ (runLinks remote fu qs0 links st).questions.length
              = st.questions.length
                + (links.filter
                    (fun l => (existingDict qs0 (extractQuestionNumber l)).isNone)).length) := by
  intro links
  induction links with
  | nil =>
    intro st hnd _ _
    refine ⟨hnd, fun n _ => rfl, fun _ => ⟨fun l hl => absurd hl (List.not_mem_nil l), ?_⟩⟩
    simp [runLinks_nil]
  | cons link rest ih =>
    intro st hnd hdict hlinksnd
    rw [List.map_cons, List.nodup_cons] at hlinksnd
    obtain ⟨hhead, htail⟩ := hlinksnd
    have hfind := hdict link (List.mem_cons_self _ _)
    cases hfail : (remote (PREFIX ++ link)).fetchFail with
    | some e =>
      rw [runLinks_cons_inl rest (stepResult_fail remote fu qs0 st link hfail)]
      refine ⟨hnd, fun n _ => rfl, fun hokk => ?_⟩
      exact absurd (hokk link (List.mem_cons_self _ _)) (by simp [hfail])
    | none =>
      have hok : (remote (PREFIX ++ link)).fetchFail = none := hfail
      have hnum := (fetchRecord_ok hok).2
      cases hex : existingDict qs0 (extractQuestionNumber link) with
      | some ex =>
        rw [hex] at hfind
        cases fu with
        | false =>
          by_cases hnu : (needs_update ex (fetchRecord remote link)).1 = true
          · -- update in place
            rw [runLinks_cons_inr rest (stepResult_update hok hex hnu)]
            have hqnums : qNums (replaceFirst (extractQuestionNumber link)
                (fetchRecord remote link) st.questions).1 = qNums st.questions :=
              replaceFirst_qNums hnum st.questions
            have hnd' : (qNums (replaceFirst (extractQuestionNumber link)
                (fetchRecord remote link) st.questions).1).Nodup := hqnums ▸ hnd
            have hdict' : ∀ l ∈ rest,
                findByNum (replaceFirst (extractQuestionNumber link)
                  (fetchRecord remote link) st.questions).1 (extractQuestionNumber l)
                  = existingDict qs0 (extractQuestionNumber l) := by
              intro l hl
              have hne : extractQuestionNumber l ≠ extractQuestionNumber link :=
                fun hh => hhead (hh ▸ List.mem_map.mpr ⟨l, hl, rfl⟩)
              rw [replaceFirst_findByNum_other hnum hne]
              exact hdict l (List.mem_cons_of_mem _ hl)
            obtain ⟨c1, c2, c3⟩ := ih
              { st with
                questions := (replaceFirst (extractQuestionNumber link)
                  (fetchRecord remote link) st.questions).1
                updated_count := st.updated_count +
                  (if (replaceFirst (extractQuestionNumber link)
                    (fetchRecord remote link) st.questions).2 then 1 else 0)
                fetched := st.fetched ++ [PREFIX ++ link] }
              hnd' hdict' htail
            refine ⟨c1, ?_, ?_⟩
            · intro n hn
              rw [List.map_cons] at hn
              have hne : n ≠ extractQuestionNumber link :=
                fun hh => hn (hh ▸ List.mem_cons_self _ _)
              exact (c2 n (fun hh => hn (List.mem_cons_of_mem _ hh))).trans
                (replaceFirst_findByNum_other hnum hne)
            · intro hokk
              have hokk' : ∀ l ∈ rest, (remote (PREFIX ++ l)).fetchFail = none :=
                fun l hl => hokk l (List.mem_cons_of_mem _ hl)
              obtain ⟨c3a, c3b⟩ := c3 hokk'
              refine ⟨?_, ?_⟩
              · intro l hl
                rcases List.mem_cons.mp hl with rfl | hl'
                · refine ⟨fetchRecord remote l, ?_, fun _ => ?_⟩
                  · exact (c2 _ hhead).trans (replaceFirst_findByNum_same hfind hnum)
                  · rw [needs_update_refl]
                · exact c3a l hl'
              · rw [c3b]
                have hlen : (replaceFirst (extractQuestionNumber link)
                    (fetchRecord remote link) st.questions).1.length
                    = st.questions.length :=
                  replaceFirst_length _ _ _
                simp only [List.filter_cons, hex, Option.isNone_some,
                  Bool.false_eq_true, if_false]
                exact congrArg (· + _) hlen
          · -- skip, no changes
            have hnu' : (needs_update ex (fetchRecord remote link)).1 = false :=
              Bool.not_eq_true _ ▸ hnu
            rw [runLinks_cons_inr rest (stepResult_skip hok hex hnu')]
            have hdict' : ∀ l ∈ rest,
                findByNum st.questions (extractQuestionNumber l)
                  = existingDict qs0 (extractQuestionNumber l) :=
              fun l hl => hdict l (List.mem_cons_of_mem _ hl)
            obtain ⟨c1, c2, c3⟩ := ih
              { st with
                skipped_count := st.skipped_count + 1
                fetched := st.fetched ++ [PREFIX ++ link] }
              hnd hdict' htail
            refine ⟨c1, ?_, ?_⟩
            · intro n hn
              rw [List.map_cons] at hn
              exact c2 n (fun hh => hn (List.mem_cons_of_mem _ hh))
            · intro hokk
              have hokk' : ∀ l ∈ rest, (remote (PREFIX ++ l)).fetchFail = none :=
                fun l hl => hokk l (List.mem_cons_of_mem _ hl)
              obtain ⟨c3a, c3b⟩ := c3 hokk'
              refine ⟨?_, ?_⟩
              · intro l hl
                rcases List.mem_cons.mp hl with rfl | hl'
                · exact ⟨ex, (c2 _ hhead).trans hfind, fun _ => hnu'⟩
                · exact c3a l hl'
              · rw [c3b]
                simp only [List.filter_cons, hex, Option.isNone_some,
                  Bool.false_eq_true, if_false]
        | true =>
          rw [runLinks_cons_inr rest (stepResult_force hok hex)]
          have hqnums : qNums (replaceFirst (extractQuestionNumber link)
              (fetchRecord remote link) st.questions).1 = qNums st.questions :=
            replaceFirst_qNums hnum st.questions
          have hnd' : (qNums (replaceFirst (extractQuestionNumber link)
              (fetchRecord remote link) st.questions).1).Nodup := hqnums ▸ hnd
          have hdict' : ∀ l ∈ rest,
              findByNum (replaceFirst (extractQuestionNumber link)
                (fetchRecord remote link) st.questions).1 (extractQuestionNumber l)
                = existingDict qs0 (extractQuestionNumber l) := by
            intro l hl
            have hne : extractQuestionNumber l ≠ extractQuestionNumber link :=
              fun hh => hhead (hh ▸ List.mem_map.mpr ⟨l, hl, rfl⟩)
            rw [replaceFirst_findByNum_other hnum hne]
            exact hdict l (List.mem_cons_of_mem _ hl)
          obtain ⟨c1, c2, c3⟩ := ih
            { st with
              questions := (replaceFirst (extractQuestionNumber link)
                (fetchRecord remote link) st.questions).1
              updated_count := st.updated_count +
                (if (replaceFirst (extractQuestionNumber link)
                  (fetchRecord remote link) st.questions).2 then 1 else 0)
              fetched := st.fetched ++ [PREFIX ++ link] }
            hnd' hdict' htail
          refine ⟨c1, ?_, ?_⟩
          · intro n hn
            rw [List.map_cons] at hn
            have hne : n ≠ extractQuestionNumber link :=
              fun hh => hn (hh ▸ List.mem_cons_self _ _)
            exact (c2 n (fun hh => hn (List.mem_cons_of_mem _ hh))).trans
              (replaceFirst_findByNum_other hnum hne)
          · intro hokk
            have hokk' : ∀ l ∈ rest, (remote (PREFIX ++ l)).fetchFail = none :=
              fun l hl => hokk l (List.mem_cons_of_mem _ hl)
            obtain ⟨c3a, c3b⟩ := c3 hokk'
            refine ⟨?_, ?_⟩
            · intro l hl
              rcases List.mem_cons.mp hl with rfl | hl'
              · refine ⟨fetchRecord remote l, ?_, fun hff => by cases hff⟩
                exact (c2 _ hhead).trans (replaceFirst_findByNum_same hfind hnum)
              · exact c3a l hl'
            · rw [c3b]
              have hlen : (replaceFirst (extractQuestionNumber link)
                  (fetchRecord remote link) st.questions).1.length
                  = st.questions.length :=
                replaceFirst_length _ _ _
              simp only [List.filter_cons, hex, Option.isNone_some,
                Bool.false_eq_true, if_false]
              exact congrArg (· + _) hlen
      | none =>
        rw [hex] at hfind
        rw [runLinks_cons_inr rest (stepResult_new hok hex)]
        have hnotmem : extractQuestionNumber link ∉ qNums st.questions :=
          findByNum_eq_none_iff_not_mem.mp hfind
        have hnd' : (qNums (st.questions ++ [fetchRecord remote link])).Nodup := by
          rw [qNums, List.map_append]
          rw [List.nodup_append]
          refine ⟨hnd, by simp, ?_⟩
          intro a ha hb
          simp only [List.map_cons, List.map_nil, List.mem_singleton] at hb
          rw [hb, hnum] at ha
          exact hnotmem ha
        have hdict' : ∀ l ∈ rest,
            findByNum (st.questions ++ [fetchRecord remote link])
              (extractQuestionNumber l)
              = existingDict qs0 (extractQuestionNumber l) := by
          intro l hl
          have hne : extractQuestionNumber l ≠ extractQuestionNumber link :=
            fun hh => hhead (hh ▸ List.mem_map.mpr ⟨l, hl, rfl⟩)
          rw [findByNum_append_of_ne (hnum ▸ fun hh => hne hh.symm)]
          exact hdict l (List.mem_cons_of_mem _ hl)
        obtain ⟨c1, c2, c3⟩ := ih
          { st with
            questions := st.questions ++ [fetchRecord remote link]
            new_count := st.new_count + 1
            fetched := st.fetched ++ [PREFIX ++ link] }
          hnd' hdict' htail
        refine ⟨c1, ?_, ?_⟩
        · intro n hn
          rw [List.map_cons] at hn
          have hne : n ≠ extractQuestionNumber link :=
            fun hh => hn (hh ▸ List.mem_cons_self _ _)
          exact (c2 n (fun hh => hn (List.mem_cons_of_mem _ hh))).trans
            (findByNum_append_of_ne (hnum ▸ fun hh => hne hh.symm))
        · intro hokk
          have hokk' : ∀ l ∈ rest, (remote (PREFIX ++ l)).fetchFail = none :=
            fun l hl => hokk l (List.mem_cons_of_mem _ hl)
          obtain ⟨c3a, c3b⟩ := c3 hokk'
          refine ⟨?_, ?_⟩
          · intro l hl
            rcases List.mem_cons.mp hl with rfl | hl'
            · refine ⟨fetchRecord remote l, ?_, fun _ => ?_⟩
              · exact (c2 _ hhead).trans (findByNum_append_self hfind hnum)
              · rw [needs_update_refl]
            · exact c3a l hl'
          · rw [c3b]
            have hl1 : ({ st with
                questions := st.questions ++ [fetchRecord remote link]
                new_count := st.new_count + 1
                fetched := st.fetched ++ [PREFIX ++ link] } : SyncState).questions.length
                = st.questions.length + 1 := by
              simp [List.length_append]
            rw [hl1]
            simp only [List.filter_cons, hex, Option.isNone_none, if_true,
              List.length_cons]
            omega

/-- When every link's number resolves in the start-of-run dict to a
record that the fresh fetch classifies unchanged, the whole loop only
skips: the record list, counters and error are untouched except for the
skip counter and the fetch log. -/
theorem runLinks_all_skip (remote : String → PageData) (qs1 : List Question) :
    ∀ (links : List String) (st : SyncState),
      (∀ l ∈ links, ∃ q,
        existingDict qs1 (extractQuestionNumber l) = some q
        ∧ (remote (PREFIX ++ l)).fetchFail = none
        ∧ (needs_update q (fetchRecord remote l)).1 = false) →
      runLinks remote false qs1 links st
        = { st with
            skipped_count := st.skipped_count + links.length
            fetched := st.fetched ++ links.map (fun l => PREFIX ++ l) } := by
  intro links
  induction links with
  | nil =>
    intro st _
    simp [runLinks_nil]
  | cons link rest ih =>
    intro st h
    obtain ⟨q, hex, hok, hnu⟩ := h link (List.mem_cons_self _ _)
    rw [runLinks_cons_inr rest (stepResult_skip hok hex hnu)]
    rw [ih _ (fun l hl => h l (List.mem_cons_of_mem _ hl))]
    cases st
    simp [List.append_assoc]
    omega

/-- The loop state `scrape_questions` reaches before sorting and
persisting. -/
def loopState (remote : String → PageData) (fu : Bool) (file : ExamFile)
    (links : List String) : SyncState :=
  runLinks remote fu (initialQuestions file) links
    { questions := initialQuestions file
      updated_count := 0
      new_count := 0
      skipped_count := 0
      error_string := ""
      fetched := [] }

theorem scrape_questions_eq (remote : String → PageData) (links : List String)
    (file : ExamFile) (fu : Bool) :
    scrape_questions remote links file fu =
      ({ status := if (sortQuestions (loopState remote fu file links).questions).length
            = links.length then "complete" else "in progress"
         error := (loopState remote fu file links).error_string
         questions := sortQuestions (loopState remote fu file links).questions },
       loopState remote fu file links) := rfl

theorem QuestionsObj_ext {a b : QuestionsObj} (h1 : a.status = b.status)
    (h2 : a.error = b.error) (h3 : a.questions = b.questions) : a = b := by
  cases a
  cases b
  cases h1
  cases h2
  cases h3
  rfl

/-- Claim C1, amended: sync is idempotent when, additionally, the
stored records' question numbers are pairwise distinct and so are the
numbers embedded in the discovered links (without this the start-of-run
lookup dict of `scraper.py` line 375 collapses duplicate ids and the
second run re-classifies records, see the counterexample).  With a
deterministic remote answering every fetch, running `scrape_questions`
a second time on the collection persisted by the first run persists an
identical object, classifies every link as skipped (`Unchanged`), and
leaves the updated/new counters at zero and the error empty. -/
theorem c1_sync_idempotent (remote : String → PageData) (links : List String)
    (file : ExamFile)
    (h0 : (qNums (initialQuestions file)).Nodup)
    (hL : (links.map extractQuestionNumber).Nodup)
    (hok : ∀ l ∈ links, (remote (PREFIX ++ l)).fetchFail = none) :
    (scrape_questions remote links
        (ExamFile.stored (scrape_questions remote links file false).1) false).1
      = (scrape_questions remote links file false).1
    ∧ (scrape_questions remote links
        (ExamFile.stored (scrape_questions remote links file false).1) false).2.updated_count = 0
    ∧ (scrape_questions remote links
        (ExamFile.stored (scrape_questions remote links file false).1) false).2.new_count = 0
    ∧ (scrape_questions remote links
        (ExamFile.stored (scrape_questions remote links file false).1) false).2.skipped_count
      = links.length
    ∧ (scrape_questions remote links
        (ExamFile.stored (scrape_questions remote links file false).1) false).2.error_string
      = "" := by
  have hdict0 : ∀ l ∈ links,
      findByNum (initialQuestions file) (extractQuestionNumber l)
        = existingDict (initialQuestions file) (extractQuestionNumber l) :=
    fun l _ => (existingDict_eq_findByNum h0).symm
  obtain ⟨m1, m2, m3⟩ := runLinks_main remote false (initialQuestions file) links
    { questions := initialQuestions file
      updated_count := 0
      new_count := 0
      skipped_count := 0
      error_string := ""
      fetched := [] } h0 hdict0 hL
  obtain ⟨m3a, m3b⟩ := m3 hok
  have herr : (loopState remote false file links).error_string = "" :=
    (runLinks_ok_log remote false (initialQuestions file) links _ hok).2
  have hperm : (sortQuestions (loopState remote false file links).questions).Perm
      (loopState remote false file links).questions := sortQuestions_perm _
  have hnd1 : (qNums (sortQuestions (loopState remote false file links).questions)).Nodup := by
    have hp := hperm.map (fun q => q.question_number)
    exact hp.nodup_iff.mpr m1
  have hpre2 : ∀ l ∈ links, ∃ q,
      existingDict (sortQuestions (loopState remote false file links).questions)
        (extractQuestionNumber l) = some q
      ∧ (remote (PREFIX ++ l)).fetchFail = none
      ∧ (needs_update q (fetchRecord remote l)).1 = false := by
    intro l hl
    obtain ⟨q, hq, hcl⟩ := m3a l hl
    obtain ⟨hqm, hqn⟩ := findByNum_some_mem hq
    refine ⟨q, ?_, hok l hl, hcl rfl⟩
    rw [existingDict_eq_findByNum hnd1]
    exact findByNum_of_mem_nodup hnd1 (hperm.mem_iff.mpr hqm) hqn
  have hq2 : loopState remote false
      (ExamFile.stored (scrape_questions remote links file false).1) links
      = { questions := sortQuestions (loopState remote false file links).questions
          updated_count := 0
          new_count := 0
          skipped_count := 0 + links.length
          error_string := ""
          fetched := [] ++ links.map (fun l => PREFIX ++ l) } :=
    runLinks_all_skip remote
      (sortQuestions (loopState remote false file links).questions) links
      { questions := sortQuestions (loopState remote false file links).questions
        updated_count := 0
        new_count := 0
        skipped_count := 0
        error_string := ""
        fetched := [] } hpre2
  have hqs : sortQuestions (loopState remote false
        (ExamFile.stored (scrape_questions remote links file false).1) links).questions
      = sortQuestions (loopState remote false file links).questions :=
    (congrArg (fun s => sortQuestions s.questions) hq2).trans (sortQuestions_idem _)
  refine ⟨?_, ?_, ?_, ?_, ?_⟩
  · refine QuestionsObj_ext ?_ ?_ ?_
    · exact congrArg
        (fun qs => if qs.length = links.length then "complete" else "in progress") hqs
    · exact (congrArg SyncState.error_string hq2).trans herr.symm
    · exact hqs
  · exact congrArg SyncState.updated_count hq2
  · exact congrArg SyncState.new_count hq2
  · exact (congrArg SyncState.skipped_count hq2).trans (Nat.zero_add links.length)
  · exact congrArg SyncState.error_string hq2

/-- Page served for the first duplicate-id link of the claim C1
counterexample. -/
def c1pageA : PageData := ⟨"Question body A", ["A. one", "B. two"], [], some "A", [], [], none⟩

/-- Page served for the second duplicate-id link of the claim C1
counterexample. -/
def c1pageB : PageData := ⟨"Question body B", ["A. one", "B. two"], [], some "B", [], [], none⟩

/-- A deterministic remote serving different content for the two links
(identical on both runs). -/
def c1remote : String → PageData := fun url =>
  if url = PREFIX ++ "/sc/question-5-first" then c1pageA else c1pageB

/-- Two distinct links that embed the same question number 5. -/
def c1links : List String := ["/sc/question-5-first", "/sc/question-5-second"]

/-- Claim C1, counterexample: with two distinct links embedding the same
question number, a first sync (no flags, every fetch succeeding) stores
both records; the second sync over the unchanged remote classifies the
first link as Updated - its dict lookup hits the *last* stored record
with that number - so the second run's updated counter is 1, not 0, and
not every record classifies Unchanged. -/
theorem c1_sync_idempotent_counterexample :
    (∀ l ∈ c1links, (c1remote (PREFIX ++ l)).fetchFail = none)
    ∧ (scrape_questions c1remote c1links
        (ExamFile.stored (scrape_questions c1remote c1links ExamFile.missing false).1)
        false).2.updated_count = 1
    ∧ (scrape_questions c1remote c1links
        (ExamFile.stored (scrape_questions c1remote c1links ExamFile.missing false).1)
        false).2.skipped_count = 1 := by
  refine ⟨by decide, by decide, by decide⟩

/-- Distinct-id links for the claim C1 witness. -/
def w1links : List String := ["/a/question-1-x", "/a/question-2-y"]

/-- A deterministic remote for the claim C1 witness. -/
def w1remote : String → PageData := fun url =>
  if url = PREFIX ++ "/a/question-1-x" then c1pageA else c1pageB

/-- Claim C1, witness: on two distinct-id links with a deterministic
remote, the second run persists an identical object, classifies both
links as skipped, and reports zero updates and new records. -/
theorem c1_sync_idempotent_witness :
    (qNums (initialQuestions ExamFile.missing)).Nodup
    ∧ (w1links.map extractQuestionNumber).Nodup
    ∧ (∀ l ∈ w1links, (w1remote (PREFIX ++ l)).fetchFail = none)
    ∧ (scrape_questions w1remote w1links
        (ExamFile.stored (scrape_questions w1remote w1links ExamFile.missing false).1)
        false).1
      = (scrape_questions w1remote w1links ExamFile.missing false).1
    ∧ (scrape_questions w1remote w1links
        (ExamFile.stored (scrape_questions w1remote w1links ExamFile.missing false).1)
        false).2.updated_count = 0
    ∧ (scrape_questions w1remote w1links
        (ExamFile.stored (scrape_questions w1remote w1links ExamFile.missing false).1)
        false).2.skipped_count = w1links.length :=
  ⟨by decide, by decide, by decide,
    (c1_sync_idempotent w1remote w1links ExamFile.missing
      (by decide) (by decide) (by decide)).1,
    (c1_sync_idempotent w1remote w1links ExamFile.missing
      (by decide) (by decide) (by decide)).2.1,
    (c1_sync_idempotent w1remote w1links ExamFile.missing
      (by decide) (by decide) (by decide)).2.2.2.1⟩

/-- Claim C9, amended: after a sync run the persisted records have
pairwise-distinct question numbers, provided the pre-existing records
and the discovered links each embed pairwise-distinct numbers (without
the link-side condition duplicates are appended, see the
counterexample).  Moreover, when every fetch succeeds, the record count
grows by exactly the number of links whose id was absent at the start
of the run: re-encountering a stored id replaces in place instead of
appending. -/
theorem c9_record_id_uniqueness (remote : String → PageData) (links : List String)
    (file : ExamFile) (fu : Bool)
    (h0 : (qNums (initialQuestions file)).Nodup)
    (hL : (links.map extractQuestionNumber).Nodup) :
    (qNums (scrape_questions remote links file fu).1.questions).Nodup
    ∧ ((∀ l ∈ links, (remote (PREFIX ++ l)).fetchFail = none) →
        (scrape_questions remote links file fu).1.questions.length
          = (initialQuestions file).length
            + (links.filter (fun l =>
                (existingDict (initialQuestions file)
                  (extractQuestionNumber l)).isNone)).length) := by
  have hdict0 : ∀ l ∈ links,
      findByNum (initialQuestions file) (extractQuestionNumber l)
        = existingDict (initialQuestions file) (extractQuestionNumber l) :=
    fun l _ => (existingDict_eq_findByNum h0).symm
  obtain ⟨m1, m2, m3⟩ := runLinks_main remote fu (initialQuestions file) links
    { questions := initialQuestions file
      updated_count := 0
      new_count := 0
      skipped_count := 0
      error_string := ""
      fetched := [] } h0 hdict0 hL
  constructor
  · have hp := (sortQuestions_perm (loopState remote fu file links).questions).map
      (fun q => q.question_number)
    exact hp.nodup_iff.mpr m1
  · intro hokk
    obtain ⟨-, m3b⟩ := m3 hokk
    have hlen : (sortQuestions (loopState remote fu file links).questions).length
        = (loopState remote fu file links).questions.length :=
      (sortQuestions_perm _).length_eq
    exact hlen.trans m3b

/-- A remote serving the same valid page everywhere, for the claim C9
counterexample. -/
def c9remote : String → PageData := fun _ => ⟨"body", ["A"], [], some "A", [], [], none⟩

/-- Two distinct links embedding the same question number 5. -/
def c9links : List String := ["/sc/question-5-first", "/sc/question-5-second"]

/-- Claim C9, counterexample: with two distinct links embedding the same
question number, a sync from an empty collection appends two records
with the same `question_number` "5" - the start-of-run dict never sees
the record the first link just appended, so the second link appends a
duplicate instead of replacing. -/
theorem c9_record_id_uniqueness_counterexample :
    ((scrape_questions c9remote c9links ExamFile.missing false).1.questions.map
      (fun q => q.question_number)) = ["5", "5"]
    ∧ ¬ (qNums
        (scrape_questions c9remote c9links ExamFile.missing false).1.questions).Nodup := by
  refine ⟨by decide, by decide⟩

/-- Distinct-id links for the claim C9 witness. -/
def w9links : List String := ["/a/question-2-x", "/a/question-1-y"]

/-- Claim C9, witness: two distinct-id links against an empty collection
yield records with distinct numbers, and the count equals the number of
new ids. -/
theorem c9_record_id_uniqueness_witness :
    (qNums (initialQuestions ExamFile.missing)).Nodup
    ∧ (w9links.map extractQuestionNumber).Nodup
    ∧ (qNums (scrape_questions c9remote w9links ExamFile.missing false).1.questions).Nodup
    ∧ (scrape_questions c9remote w9links ExamFile.missing false).1.questions.length
      = (initialQuestions ExamFile.missing).length
        + (w9links.filter (fun l =>
            (existingDict (initialQuestions ExamFile.missing)
              (extractQuestionNumber l)).isNone)).length :=
  ⟨by decide, by decide,
    (c9_record_id_uniqueness c9remote w9links ExamFile.missing false
      (by decide) (by decide)).1,
    (c9_record_id_uniqueness c9remote w9links ExamFile.missing false
      (by decide) (by decide)).2 (by decide)⟩

/-- Claim C2: fail-fast preserves the prefix.  If the links are
`pre ++ [failLink] ++ post`, every `pre` fetch succeeds and the
`failLink` fetch fails, then the run fetches exactly the `pre` URLs
followed by the failing URL and nothing after it; the persisted records
are exactly those a run over `pre` alone would persist (the error
placeholder is never merged: starting from an all-clean collection every
persisted record is clean); the error message is recorded; and every
pre-existing record whose id is not among the `pre` ids survives
untouched. -/
theorem c2_fail_fast_preserved (remote : String → PageData) (fu : Bool) (file : ExamFile)
    (pre post : List String) (failLink e : String)
    (hokpre : ∀ l ∈ pre, (remote (PREFIX ++ l)).fetchFail = none)
    (hfail : (remote (PREFIX ++ failLink)).fetchFail = some e)
    (hclean : ∀ q ∈ initialQuestions file, q.error = none) :
    (scrape_questions remote (pre ++ failLink :: post) file fu).2.fetched
        = (pre ++ [failLink]).map (fun l => PREFIX ++ l)
    ∧ (scrape_questions remote (pre ++ failLink :: post) file fu).1.questions
        = (scrape_questions remote pre file fu).1.questions
    ∧ (∀ q ∈ (scrape_questions remote (pre ++ failLink :: post) file fu).1.questions,
        q.error = none)
    ∧ (scrape_questions remote (pre ++ failLink :: post) file fu).1.error
        = "Error: " ++ ("Request or parsing failed: " ++ e)
    ∧ (∀ q ∈ initialQuestions file,
        q.question_number ∉ pre.map extractQuestionNumber →
        q ∈ (scrape_questions remote (pre ++ failLink :: post) file fu).1.questions) := by
  have hsplit : loopState remote fu file (pre ++ failLink :: post)
      = runLinks remote fu (initialQuestions file) (failLink :: post)
          (loopState remote fu file pre) :=
    runLinks_append_ok remote fu (initialQuestions file) pre (failLink :: post) _ hokpre
  have hstop : runLinks remote fu (initialQuestions file) (failLink :: post)
      (loopState remote fu file pre)
      = { loopState remote fu file pre with
          fetched := (loopState remote fu file pre).fetched ++ [PREFIX ++ failLink]
          error_string := "Error: " ++ ("Request or parsing failed: " ++ e) } :=
    runLinks_cons_inl post (stepResult_fail remote fu _ _ failLink hfail)
  have hA := hsplit.trans hstop
  have hlog : (loopState remote fu file pre).fetched
      = [] ++ pre.map (fun l => PREFIX ++ l) :=
    (runLinks_ok_log remote fu (initialQuestions file) pre
      { questions := initialQuestions file
        updated_count := 0
        new_count := 0
        skipped_count := 0
        error_string := ""
        fetched := [] } hokpre).1
  refine ⟨?_, ?_, ?_, ?_, ?_⟩
  · show (loopState remote fu file (pre ++ failLink :: post)).fetched = _
    rw [hA]
    show (loopState remote fu file pre).fetched ++ [PREFIX ++ failLink] = _
    rw [hlog]
    simp
  · show sortQuestions (loopState remote fu file (pre ++ failLink :: post)).questions
        = sortQuestions (loopState remote fu file pre).questions
    rw [hA]
  · intro q hq
    have hq1 : q ∈ (loopState remote fu file (pre ++ failLink :: post)).questions :=
      (sortQuestions_perm _).mem_iff.mp hq
    rw [hA] at hq1
    have hq2 : q ∈ (loopState remote fu file pre).questions := hq1
    exact runLinks_error_free remote fu (initialQuestions file) pre _ hokpre hclean q hq2
  · show (loopState remote fu file (pre ++ failLink :: post)).error_string = _
    rw [hA]
  · intro q hq hnot
    have h1 : q ∈ (loopState remote fu file pre).questions :=
      runLinks_untouched remote fu (initialQuestions file) pre _ hokpre q hq hnot
    show q ∈ sortQuestions (loopState remote fu file (pre ++ failLink :: post)).questions
    refine (sortQuestions_perm _).mem_iff.mpr ?_
    rw [hA]
    exact h1

/-- The one pre-existing record (id 9) for the claim C2 witness; the
failing run must leave it untouched. -/
def w2q9 : Question := ⟨"old body", ["A"], [], "9", "/old-9", some "A", [], none⟩

/-- The stored collection for the claim C2 witness. -/
def w2file : ExamFile := .stored ⟨"in progress", "", [w2q9]⟩

/-- A remote that fails exactly the second link's fetch. -/
def w2remote : String → PageData := fun url =>
  if url = PREFIX ++ "/a/question-2-fails" then ⟨"", [], [], none, [], [], some "timeout"⟩
  else ⟨"fresh body", ["A", "B"], [], some "B", [], [], none⟩

/-- Claim C2, witness: with links 1, 2, 3 and the fetch of link 2
failing, only the first two URLs are fetched, the persisted records are
those of a run over link 1 alone, all records stay clean, the error is
recorded, and the pre-existing record 9 survives untouched. -/
theorem c2_fail_fast_preserved_witness :
    (∀ l ∈ ["/a/question-1-ok"], (w2remote (PREFIX ++ l)).fetchFail = none)
    ∧ (w2remote (PREFIX ++ "/a/question-2-fails")).fetchFail = some "timeout"
    ∧ (∀ q ∈ initialQuestions w2file, q.error = none)
    ∧ (scrape_questions w2remote
        (["/a/question-1-ok"] ++ "/a/question-2-fails" :: ["/a/question-3-never"])
        w2file false).2.fetched
      = (["/a/question-1-ok"] ++ ["/a/question-2-fails"]).map (fun l => PREFIX ++ l)
    ∧ (scrape_questions w2remote
        (["/a/question-1-ok"] ++ "/a/question-2-fails" :: ["/a/question-3-never"])
        w2file false).1.questions
      = (scrape_questions w2remote ["/a/question-1-ok"] w2file false).1.questions
    ∧ (scrape_questions w2remote
        (["/a/question-1-ok"] ++ "/a/question-2-fails" :: ["/a/question-3-never"])
        w2file false).1.error
      = "Error: " ++ ("Request or parsing failed: " ++ "timeout")
    ∧ (∀ q ∈ initialQuestions w2file,
        q.question_number ∉ ["/a/question-1-ok"].map extractQuestionNumber →
        q ∈ (scrape_questions w2remote
          (["/a/question-1-ok"] ++ "/a/question-2-fails" :: ["/a/question-3-never"])
          w2file false).1.questions) :=
  ⟨by decide, by decide, by decide,
    (c2_fail_fast_preserved w2remote false w2file ["/a/question-1-ok"]
      ["/a/question-3-never"] "/a/question-2-fails" "timeout"
      (by decide) (by decide) (by decide)).1,
    (c2_fail_fast_preserved w2remote false w2file ["/a/question-1-ok"]
      ["/a/question-3-never"] "/a/question-2-fails" "timeout"
      (by decide) (by decide) (by decide)).2.1,
    (c2_fail_fast_preserved w2remote false w2file ["/a/question-1-ok"]
      ["/a/question-3-never"] "/a/question-2-fails" "timeout"
      (by decide) (by decide) (by decide)).2.2.2.1,
    (c2_fail_fast_preserved w2remote false w2file ["/a/question-1-ok"]
      ["/a/question-3-never"] "/a/question-2-fails" "timeout"
      (by decide) (by decide) (by decide)).2.2.2.2⟩
